import Mathlib

/-!
Shallow embedding of the impersonation-proxy configuration controller
(`internal/controller/impersonatorconfig/impersonator_config.go`) and proofs
about it.  Go maps are modelled as association lists with lookup semantics,
external crypto (x509, PEM, TLS) as an explicit oracle record, and the cluster
resource store as explicit state threaded through each operation, with a log of
mutating calls.
-/

namespace Impersonator

/-! ## Association-list model of Go maps (`map[string]V`).
A map is its lookup function; the list is only a representation.  `insertA`,
`eraseA`, `overlayA` mirror Go's `m[k] = v`, `delete(m, k)` and
`for k, v := range d { m[k] = v }`, and `mapEqb` mirrors semantic map equality
as used by `equality.Semantic.DeepEqual`. -/

def lookupA {α : Type} (m : List (String × α)) (k : String) : Option α :=
  (m.find? (fun p => p.1 == k)).map (fun p => p.2)

def insertA {α : Type} (m : List (String × α)) (k : String) (v : α) : List (String × α) :=
  (k, v) :: m.filter (fun p => p.1 != k)

def eraseA {α : Type} (m : List (String × α)) (k : String) : List (String × α) :=
  m.filter (fun p => p.1 != k)

def overlayA {α : Type} (m d : List (String × α)) : List (String × α) :=
  d.foldr (fun p acc => insertA acc p.1 p.2) m

/-- Left-biased Option choice (sharing one definition between the functions
and the lemmas about them). -/
def orElseA {α : Type} (a b : Option α) : Option α :=
  match a with
  | some v => some v
  | none => b

def mapEqb {α : Type} [DecidableEq α] (m1 m2 : List (String × α)) : Bool :=
  m1.all (fun p => decide (lookupA m2 p.1 = lookupA m1 p.1)) &&
  m2.all (fun p => decide (lookupA m1 p.1 = lookupA m2 p.1))

/-- The set of keys of a Go map, each exactly once, as produced by ranging
over the map's keys. -/
def keysOf {α : Type} (m : List (String × α)) : List String :=
  (m.map (fun p => p.1)).dedup

/-! ## Model of `encoding/json` marshalling of a `[]string`
(used by the controller only for the bookkeeping annotation value).
Only arrays of strings are modelled; `'"'` and `'\'` are escaped as in JSON.
Go's additional escaping of control and HTML characters is not modelled; the
coding below is self-consistent (round-trips for every string list), which is
the property the controller relies on. -/

def escList (s : List Char) : List Char :=
  s.foldr (fun c r => if c = '"' ∨ c = '\\' then '\\' :: c :: r else c :: r) []

def quoteList (s : String) : List Char :=
  '"' :: (escList s.data ++ ['"'])

def bodyList : List String → List Char
  | [] => []
  | [k] => quoteList k
  | k :: k2 :: ks => quoteList k ++ ',' :: bodyList (k2 :: ks)

def jsonMarshalStrings (ks : List String) : String :=
  String.mk ('[' :: (bodyList ks ++ [']']))

/-- Parser state for `jsonUnmarshalStrings`: directly after `[`; after a `,`;
inside a string literal (with the reversed characters so far); directly after a
backslash inside a string; after a closing quote. -/
inductive JState : Type
  | first : JState
  | item : JState
  | inStr : List Char → JState
  | inEsc : List Char → JState
  | afterItem : JState

def decAux : JState → List String → List Char → Option (List String)
  | _, _, [] => none
  | st, acc, c :: rest =>
    match st with
    | JState.first =>
      if c = ']' then (if rest.isEmpty then some acc else none)
      else if c = '"' then decAux (JState.inStr []) acc rest
      else none
    | JState.item =>
      if c = '"' then decAux (JState.inStr []) acc rest else none
    | JState.inStr cur =>
      if c = '\\' then decAux (JState.inEsc cur) acc rest
      else if c = '"' then decAux JState.afterItem (acc ++ [String.mk cur.reverse]) rest
      else decAux (JState.inStr (c :: cur)) acc rest
    | JState.inEsc cur => decAux (JState.inStr (c :: cur)) acc rest
    | JState.afterItem =>
      if c = ',' then decAux JState.item acc rest
      else if c = ']' then (if rest.isEmpty then some acc else none)
      else none

def jsonUnmarshalStrings (s : String) : Option (List String) :=
  match s.data with
  | '[' :: rest => decAux JState.first [] rest
  | _ => none

/-! ## Data model -/

/-- Byte strings (Go `[]byte`), and parsed IP addresses (Go `net.IP`), as lists
of byte values.  A `nil` Go `net.IP` is the empty list. -/
abbrev Bytes := List Nat

structure IngressEntry : Type where
  hostname : String
  ip : String
deriving DecidableEq

structure ServicePort : Type where
  targetPort : Nat
  port : Nat
  protocol : String
deriving DecidableEq

/-- Model of a `v1.Service`, restricted to the fields this controller reads or
writes: metadata labels, metadata anns (the annotation map), and the spec and
status fields used by the reconciler. -/
structure Svc : Type where
  name : String
  labels : List (String × String)
  anns : List (String × String)
  selector : List (String × String)
  svcType : String
  loadBalancerIP : String
  ports : List ServicePort
  clusterIP : String
  clusterIPs : List String
  ingress : List IngressEntry
deriving DecidableEq

/-- Model of a `v1.Secret`. -/
structure Sec : Type where
  name : String
  labels : List (String × String)
  data : List (String × Bytes)
  secType : String
deriving DecidableEq

/-- The part of a parsed x509 certificate this controller inspects. -/
structure Cert : Type where
  ipAddresses : List Bytes
  dnsNames : List String
deriving DecidableEq

/-- A certificate authority as two PEM blobs (`certauthority.CA`, a repo
package outside src/: only its bundle and private-key PEM are relevant). -/
structure CA : Type where
  bundle : Bytes
  keyPEM : Bytes
deriving DecidableEq

/-- Oracle for the external crypto routines used by the controller:
`pem.Decode`, `x509.ParseCertificate`, `tls.X509KeyPair`, `x509.Certificate.Verify`
(stdlib), `dynamiccert.SetCertKeyContent` and the repo's `certauthority`
package (`New`/`Load`/`IssueServerCert`/`ToPEM`, not under src/).  Theorems
about round-trip behaviour take explicit coherence hypotheses on this record. -/
structure Crypto : Type where
  pemDecode : Bytes → Option Bytes
  parseCert : Bytes → Option Cert
  keyPairOk : Bytes → Bytes → Bool
  verifyOk : Cert → CA → Bool
  setServingOk : Bytes → Bytes → Bool
  setSigningOk : Bytes → Bytes → Bool
  newCA : CA
  loadCA : Bytes → Bytes → Option CA
  issueServerCert : CA → List String → List Bytes → Option Cert
  certToPEM : Cert → Option (Bytes × Bytes)

/-- `certNameInfo` from the source. -/
structure CertNameInfo : Type where
  ready : Bool
  selectedIPs : List Bytes
  selectedHostname : String
  clientEndpoint : String
deriving DecidableEq

def notReadyNameInfo : CertNameInfo :=
  { ready := false, selectedIPs := [], selectedHostname := "", clientEndpoint := "" }

inductive StrategyStatus : Type
  | success : StrategyStatus
  | error : StrategyStatus
deriving DecidableEq

/-- The `v1alpha1.StrategyReason` constants referenced by the source file:
`DisabledStrategyReason`, `PendingStrategyReason`, `ListeningStrategyReason`,
`ErrorDuringSetupStrategyReason` (the generated API package is outside src/;
the constructors mirror the constant names used in src/). -/
inductive StrategyReason : Type
  | disabled : StrategyReason
  | pending : StrategyReason
  | listening : StrategyReason
  | errorDuringSetup : StrategyReason
deriving DecidableEq

structure Frontend : Type where
  endpoint : String
  certificateAuthorityData : String
deriving DecidableEq

/-- `v1alpha1.CredentialIssuerStrategy` (the fields the controller writes). -/
structure Strategy : Type where
  status : StrategyStatus
  reason : StrategyReason
  message : String
  lastUpdateTime : Nat
  frontend : Option Frontend
deriving DecidableEq

/-- `v1alpha1.ImpersonationProxySpec`.  `mode` and `svcType` are the string
enumerations of the CRD; `anns` is `spec.service.annotations`. -/
structure ProxySpec : Type where
  mode : String
  svcType : String
  loadBalancerIP : String
  externalEndpoint : String
  anns : List (String × String)
deriving DecidableEq

/-- Modelled from the spec: the mode enumeration {disabled, auto, enabled}
(values live in the generated API package, outside src/). -/
def modeDisabled : String := "disabled"
def modeAuto : String := "auto"
def modeEnabled : String := "enabled"

/-- Modelled from the spec: the service-type enumeration
{None, LoadBalancer, ClusterIP} (values live in the generated API package). -/
def svcTypeNone : String := "None"
def svcTypeLoadBalancer : String := "LoadBalancer"
def svcTypeClusterIP : String := "ClusterIP"

def impersonationProxyPort : Nat := 8444
def defaultHTTPSPort : Nat := 443
def appLabelKey : String := "app"
def annKeysKey : String := "credentialissuer.pinniped.dev/annotation-keys"
def caCrtKey : String := "ca.crt"
def caKeyKey : String := "ca.key"
def tlsCertKey : String := "tls.crt"
def tlsPrivateKeyKey : String := "tls.key"

/-- The controller's configuration: resource names and labels
(fields of `impersonatorConfigController`). -/
structure Params : Type where
  loadBalancerSvcName : String
  clusterIPSvcName : String
  tlsSecretName : String
  caSecretName : String
  signerSecretName : String
  labels : List (String × String)
deriving DecidableEq

/-- The controller's mutable in-memory state: the cached control-plane flag,
the proxy-server stop channel (`serverRunning` models `serverStopCh != nil`),
the single-slot error channel (`errChVal` is its buffered value, the inner
`Option` models a Go `nil` error value), and the two certificate providers. -/
structure CtrlState : Type where
  hasControlPlaneNodes : Option Bool
  serverRunning : Bool
  errChClosed : Bool
  errChVal : Option (Option String)
  tlsProvider : Option (Bytes × Bytes)
  signerProvider : Option (Bytes × Bytes)
deriving DecidableEq

/-- The cluster resource store (services and secrets in the controller's
namespace).  Reads (informer) and writes (API client) see the same store;
this models the steady state in which the informer caches are caught up. -/
structure World : Type where
  services : List Svc
  secrets : List Sec
deriving DecidableEq

/-- A mutating call against the cluster resource store. -/
inductive Action : Type
  | createSvc : Svc → Action
  | updateSvc : Svc → Action
  | deleteSvc : String → Action
  | createSec : Sec → Action
  | deleteSec : String → Action
deriving DecidableEq

def findSvc (l : List Svc) (n : String) : Option Svc := l.find? (fun s => s.name == n)
def findSec (l : List Sec) (n : String) : Option Sec := l.find? (fun s => s.name == n)
def replaceSvc (l : List Svc) (n : String) (s' : Svc) : List Svc :=
  l.map (fun s => if s.name = n then s' else s)
def removeSvc (l : List Svc) (n : String) : List Svc := l.filter (fun s => s.name != n)
def removeSec (l : List Sec) (n : String) : List Sec := l.filter (fun s => s.name != n)

/-! ## External parsing helpers.
All string manipulation is done with structural recursion over the character
list so that every definition evaluates inside the kernel. -/

def splitOnChar (sep : Char) : List Char → List (List Char)
  | [] => [[]]
  | c :: rest =>
    let r := splitOnChar sep rest
    if c = sep then [] :: r
    else
      match r with
      | x :: xs => (c :: x) :: xs
      | [] => [[c]]

def isDigitChar (c : Char) : Bool := decide ('0' ≤ c) && decide (c ≤ '9')

def digitsToNat (l : List Char) : Nat :=
  l.foldl (fun acc c => acc * 10 + (c.toNat - 48)) 0

/-- Decimal digits of a natural number, most significant first (`fuel` only
bounds the recursion; `fuel = n + 1` always suffices). -/
def natDigits : Nat → Nat → List Char
  | 0, _ => []
  | fuel + 1, n =>
    if n < 10 then [Char.ofNat (48 + n)]
    else natDigits fuel (n / 10) ++ [Char.ofNat (48 + n % 10)]

def natToStr (n : Nat) : String := String.mk (natDigits (n + 1) n)

def isIPv4Octet (l : List Char) : Bool :=
  !l.isEmpty && l.all isDigitChar && decide (l.length ≤ 3) &&
  decide (digitsToNat l ≤ 255) && (decide (l.length = 1) || decide (l.headD '0' ≠ '0'))

/-- Model of Go's `net.ParseIP` restricted to IPv4 dotted-quad form (IPv6
literals are not modelled and parse as failures; like Go ≥ 1.17, leading
zeros in an octet are rejected). -/
def parseIPv4 (s : String) : Option Bytes :=
  let parts := splitOnChar '.' s.data
  if parts.length = 4 ∧ parts.all isIPv4Octet then some (parts.map digitsToNat)
  else none

/-- Model of `validation.IsValidIP` (k8s library), via `parseIPv4`. -/
def validIPb (s : String) : Bool := (parseIPv4 s).isSome

structure EndpointAddr : Type where
  host : String
  port : Nat
deriving DecidableEq

/-- Modelled from the spec: `endpointaddr.Parse` (repo package
`internal/endpointaddr`, not under src/) parses a `host[:port]` string,
using the given default port when no port is present.  Bracketed IPv6
host syntax is not modelled. -/
def parseEndpoint (s : String) (defaultPort : Nat) : Option EndpointAddr :=
  if s = "" then none
  else if s.data.any (fun c => decide (c = ':')) then
    match splitOnChar ':' s.data with
    | [h, prt] =>
      if h.isEmpty || prt.isEmpty || !prt.all isDigitChar then none
      else some { host := String.mk h, port := digitsToNat prt }
    | _ => none
  else some { host := s, port := defaultPort }

/-- `addr.Endpoint()`: the `host:port` string. -/
def EndpointAddr.endpointStr (a : EndpointAddr) : String :=
  a.host ++ ":" ++ natToStr a.port

/-- Lexicographic byte order on strings (Go's `sort.Strings` order),
kernel-computable. -/
def lexLe : List Char → List Char → Bool
  | [], _ => true
  | _ :: _, [] => false
  | a :: as, b :: bs =>
    if a.toNat < b.toNat then true
    else if b.toNat < a.toNat then false
    else lexLe as bs

def strLeb (a b : String) : Bool := lexLe a.data b.data

/-- Go's `strings.TrimSuffix`. -/
def trimSuffix (s suf : String) : String :=
  let n := s.data.length
  let m := suf.data.length
  if decide (m ≤ n) && decide (s.data.drop (n - m) = suf.data) then
    String.mk (s.data.take (n - m))
  else s

/-- Model of Go's `encoding/base64` standard encoding. -/
def base64Chars : List Char :=
  "ABCDEFGHIJKLMNOPQRSTUVWXYZabcdefghijklmnopqrstuvwxyz0123456789+/".data

def base64Digit (n : Nat) : Char := base64Chars.getD n '='

def base64Chunks : Bytes → List Char
  | b1 :: b2 :: b3 :: rest =>
    let n := ((b1 % 256) * 65536) + ((b2 % 256) * 256) + (b3 % 256)
    base64Digit (n / 262144 % 64) :: base64Digit (n / 4096 % 64) ::
      base64Digit (n / 64 % 64) :: base64Digit (n % 64) :: base64Chunks rest
  | [b1, b2] =>
    let n := ((b1 % 256) * 65536) + ((b2 % 256) * 256)
    [base64Digit (n / 262144 % 64), base64Digit (n / 4096 % 64), base64Digit (n / 64 % 64), '=']
  | [b1] =>
    let n := (b1 % 256) * 65536
    [base64Digit (n / 262144 % 64), base64Digit (n / 4096 % 64), '=', '=']
  | [] => []

def base64Encode (bs : Bytes) : String := String.mk (base64Chunks bs)

/-! ## Desired-state resolver (`validateCredentialIssuerSpec`,
`loadImpersonationProxyConfiguration`, `shouldHave*`) -/

def validateCredentialIssuerSpec (spec : ProxySpec) : Option String :=
  if spec.mode ≠ modeDisabled ∧ spec.mode ≠ modeAuto ∧ spec.mode ≠ modeEnabled then
    some "invalid proxy mode"
  else if spec.mode = modeDisabled then none
  else if spec.svcType ≠ svcTypeNone ∧ spec.svcType ≠ svcTypeLoadBalancer ∧
      spec.svcType ≠ svcTypeClusterIP then
    some "invalid service type"
  else if spec.loadBalancerIP ≠ "" ∧ validIPb spec.loadBalancerIP = false then
    some "invalid LoadBalancerIP"
  else if spec.externalEndpoint = "" ∧ spec.svcType = svcTypeNone then
    some "externalEndpoint must be set when service.type is None"
  else if spec.externalEndpoint ≠ "" ∧ (parseEndpoint spec.externalEndpoint 443).isNone then
    some "invalid ExternalEndpoint"
  else none

def loadImpersonationProxyConfiguration (spec? : Option ProxySpec) : Except String ProxySpec :=
  match spec? with
  | none => Except.error "could not load CredentialIssuer: spec.impersonationProxy is nil"
  | some spec0 =>
    let spec := if spec0.svcType = "" then { spec0 with svcType := svcTypeLoadBalancer } else spec0
    match validateCredentialIssuerSpec spec with
    | some e => Except.error e
    | none => Except.ok spec

def enabledByAutoMode (hasCP : Bool) (config : ProxySpec) : Bool :=
  (config.mode == modeAuto) && !hasCP

def disabledByAutoMode (hasCP : Bool) (config : ProxySpec) : Bool :=
  (config.mode == modeAuto) && hasCP

def disabledExplicitly (config : ProxySpec) : Bool :=
  config.mode == modeDisabled

def shouldHaveImpersonator (hasCP : Bool) (config : ProxySpec) : Bool :=
  enabledByAutoMode hasCP config || config.mode == modeEnabled

def shouldHaveLoadBalancer (hasCP : Bool) (config : ProxySpec) : Bool :=
  shouldHaveImpersonator hasCP config && config.svcType == svcTypeLoadBalancer

def shouldHaveClusterIPService (hasCP : Bool) (config : ProxySpec) : Bool :=
  shouldHaveImpersonator hasCP config && config.svcType == svcTypeClusterIP

def shouldHaveTLSSecret (hasCP : Bool) (config : ProxySpec) : Bool :=
  shouldHaveImpersonator hasCP config

/-! ## Proxy process lifecycle (`ensureImpersonatorIsStarted`,
`ensureImpersonatorIsStopped`) -/

/-- `errors.NewAggregate` restricted to two entries, skipping Go `nil`s. -/
def aggErr : Option String → Option String → Option String
  | none, e2 => e2
  | some e1, none => some e1
  | some e1, some e2 => some (e1 ++ "; " ++ e2)

/-- `ensureImpersonatorIsStopped`.  The blocking read of the error channel
yields the buffered value if present, the zero value if the channel is closed,
and otherwise the server's eventual exit value `exitErr` (an input of the
model, since it comes from the external proxy-server task). -/
def ensureImpersonatorIsStopped (shouldCloseErrChan : Bool) (exitErr : Option String)
    (st : CtrlState) : CtrlState × Option String :=
  if !st.serverRunning then (st, none)
  else
    let stopErr :=
      match st.errChVal with
      | some v => v
      | none => if st.errChClosed then none else exitErr
    let _ := shouldCloseErrChan
    ({ st with serverRunning := false, errChVal := none, errChClosed := false }, stopErr)

def ensureImpersonatorIsStarted (st : CtrlState) : CtrlState × Option String :=
  if st.serverRunning then
    match st.errChVal with
    | some v =>
      let runningErr :=
        match v with
        | none => some "unexpected shutdown of proxy server"
        | some e => some e
      let st1 := { st with errChVal := none, errChClosed := true }
      let r := ensureImpersonatorIsStopped false none st1
      (r.1, aggErr runningErr r.2)
    | none => (st, none)
  else
    ({ st with serverRunning := true, errChVal := none, errChClosed := false }, none)

/-! ## Network exposure reconciler (`createOrUpdateService` and the
`ensure*` service functions).  In this model the store operations themselves
always succeed; API errors are external faults outside the claims. -/

/-- The bookkeeping prologue of `createOrUpdateService`: record the sorted
desired annotation keys under the bookkeeping key, but only when some
annotation was requested.  Returns the desired service (possibly with the
bookkeeping entry added) together with the sorted desired key list. -/
def withBookkeeping (desired : Svc) : Svc × List String :=
  let desiredAnnKeys := keysOf desired.anns
  if desiredAnnKeys.isEmpty then (desired, [])
  else
    let sortedKeys := desiredAnnKeys.insertionSort (fun a b => strLeb a b = true)
    ({ desired with anns := insertA desired.anns annKeysKey (jsonMarshalStrings sortedKeys) },
      sortedKeys)

/-- The previously recorded bookkeeping keys of a stored service: the parsed
bookkeeping annotation, or `[]` when absent or unparseable (the source ignores
the `json.Unmarshal` error). -/
def oldBookkeepingKeys (existing : Svc) : List String :=
  match lookupA existing.anns annKeysKey with
  | some j => (jsonUnmarshalStrings j).getD []
  | none => []

/-- The update path of `createOrUpdateService` (lines 569-612): deep-copy the
existing service, overwrite labels / loadBalancerIP / type / selector,
merge-overlay the desired annotation map, delete keys recorded in the previous
bookkeeping list that are gone from the desired set, and drop the bookkeeping
entry when no annotation is desired. -/
def buildUpdatedService (desired : Svc) (desiredKeys : List String) (existing : Svc) : Svc :=
  let anns1 := overlayA existing.anns desired.anns
  let oldKeys := oldBookkeepingKeys existing
  let anns2 := oldKeys.foldl
    (fun m k => if (lookupA desired.anns k).isSome then m else eraseA m k) anns1
  let anns3 := if desiredKeys.isEmpty then eraseA anns2 annKeysKey else anns2
  { existing with
      labels := desired.labels
      loadBalancerIP := desired.loadBalancerIP
      svcType := desired.svcType
      selector := desired.selector
      anns := anns3 }

/-- `equality.Semantic.DeepEqual` on the modelled service fields (maps compare
semantically). -/
def serviceEqb (a b : Svc) : Bool :=
  a.name == b.name && mapEqb a.labels b.labels && mapEqb a.selector b.selector &&
  mapEqb a.anns b.anns && a.svcType == b.svcType && a.loadBalancerIP == b.loadBalancerIP &&
  decide (a.ports = b.ports) && a.clusterIP == b.clusterIP &&
  decide (a.clusterIPs = b.clusterIPs) && decide (a.ingress = b.ingress)

def createOrUpdateService (w : World) (desired0 : Svc) : World × List Action :=
  let pr := withBookkeeping desired0
  let desired := pr.1
  match findSvc w.services desired.name with
  | none => ({ w with services := desired :: w.services }, [Action.createSvc desired])
  | some existing =>
    let updated := buildUpdatedService desired pr.2 existing
    if serviceEqb existing updated then (w, [])
    else ({ w with services := replaceSvc w.services desired.name updated },
      [Action.updateSvc updated])

def desiredLoadBalancer (p : Params) (config : ProxySpec) : Svc :=
  { name := p.loadBalancerSvcName
    labels := p.labels
    anns := config.anns
    selector := [(appLabelKey, (lookupA p.labels appLabelKey).getD "")]
    svcType := svcTypeLoadBalancer
    loadBalancerIP := config.loadBalancerIP
    ports := [{ targetPort := impersonationProxyPort, port := defaultHTTPSPort, protocol := "TCP" }]
    clusterIP := ""
    clusterIPs := []
    ingress := [] }

def ensureLoadBalancerIsStarted (p : Params) (config : ProxySpec) (w : World) :
    World × List Action :=
  createOrUpdateService w (desiredLoadBalancer p config)

def ensureLoadBalancerIsStopped (p : Params) (w : World) : World × List Action :=
  match findSvc w.services p.loadBalancerSvcName with
  | none => (w, [])
  | some _ => ({ w with services := removeSvc w.services p.loadBalancerSvcName },
      [Action.deleteSvc p.loadBalancerSvcName])

def desiredClusterIPService (p : Params) (config : ProxySpec) : Svc :=
  { name := p.clusterIPSvcName
    labels := p.labels
    anns := config.anns
    selector := [(appLabelKey, (lookupA p.labels appLabelKey).getD "")]
    svcType := svcTypeClusterIP
    loadBalancerIP := ""
    ports := [{ targetPort := impersonationProxyPort, port := defaultHTTPSPort, protocol := "TCP" }]
    clusterIP := ""
    clusterIPs := []
    ingress := [] }

def ensureClusterIPServiceIsStarted (p : Params) (config : ProxySpec) (w : World) :
    World × List Action :=
  createOrUpdateService w (desiredClusterIPService p config)

def ensureClusterIPServiceIsStopped (p : Params) (w : World) : World × List Action :=
  match findSvc w.services p.clusterIPSvcName with
  | none => (w, [])
  | some _ => ({ w with services := removeSvc w.services p.clusterIPSvcName },
      [Action.deleteSvc p.clusterIPSvcName])

/-! ## Certificate name resolver (`findDesiredTLSCertificateName` and the
three strategies) -/

def findTLSCertificateNameFromEndpointConfig (config : ProxySpec) : CertNameInfo :=
  let addr := (parseEndpoint config.externalEndpoint 443).getD { host := "", port := 0 }
  let endpoint := trimSuffix addr.endpointStr ":443"
  match parseIPv4 addr.host with
  | some ip =>
    { ready := true, selectedIPs := [ip], selectedHostname := "", clientEndpoint := endpoint }
  | none =>
    { ready := true, selectedIPs := [], selectedHostname := addr.host, clientEndpoint := endpoint }

/-- The first ingress loop of `findTLSCertificateNameFromLoadBalancer`:
the first entry carrying a hostname. -/
def firstHostnameIngress : List IngressEntry → Option IngressEntry
  | [] => none
  | i :: rest => if i.hostname ≠ "" then some i else firstHostnameIngress rest

/-- The second ingress loop: the first entry whose IP string parses. -/
def firstParseableIPIngress : List IngressEntry → Option (IngressEntry × Bytes)
  | [] => none
  | i :: rest =>
    match parseIPv4 i.ip with
    | some parsed => some (i, parsed)
    | none => firstParseableIPIngress rest

def findTLSCertificateNameFromLoadBalancer (p : Params) (services : List Svc) :
    Except String CertNameInfo :=
  match findSvc services p.loadBalancerSvcName with
  | none => Except.ok notReadyNameInfo
  | some lb =>
    match lb.ingress with
    | [] => Except.ok notReadyNameInfo
    | firstIngress :: _ =>
      if firstIngress.hostname = "" ∧ firstIngress.ip = "" then Except.ok notReadyNameInfo
      else
        match firstHostnameIngress lb.ingress with
        | some i =>
          Except.ok
            { ready := true, selectedIPs := [],
              selectedHostname := i.hostname, clientEndpoint := i.hostname }
        | none =>
          match firstParseableIPIngress lb.ingress with
          | some ipr =>
            Except.ok
              { ready := true, selectedIPs := [ipr.2],
                selectedHostname := "", clientEndpoint := ipr.1.ip }
          | none =>
            Except.error "could not find valid IP addresses or hostnames from load balancer"

def findTLSCertificateNameFromClusterIPService (p : Params) (services : List Svc) :
    Except String CertNameInfo :=
  match findSvc services p.clusterIPSvcName with
  | none => Except.ok notReadyNameInfo
  | some svc =>
    if svc.clusterIP ≠ "" then
      let parsedIPs :=
        if svc.clusterIPs.isEmpty then [(parseIPv4 svc.clusterIP).getD []]
        else svc.clusterIPs.map (fun s => (parseIPv4 s).getD [])
      Except.ok
        { ready := true, selectedIPs := parsedIPs, selectedHostname := "",
          clientEndpoint := svc.clusterIP }
    else Except.ok notReadyNameInfo

def findDesiredTLSCertificateName (p : Params) (config : ProxySpec) (services : List Svc) :
    Except String CertNameInfo :=
  if config.externalEndpoint ≠ "" then
    Except.ok (findTLSCertificateNameFromEndpointConfig config)
  else if config.svcType = svcTypeClusterIP then
    findTLSCertificateNameFromClusterIPService p services
  else findTLSCertificateNameFromLoadBalancer p services

/-! ## CA and TLS secret reconciler -/

def ensureCASecretIsCreated (crypto : Crypto) (p : Params) (w : World) :
    World × List Action × Except String CA :=
  match findSec w.secrets p.caSecretName with
  | none =>
    let ca := crypto.newCA
    let sec : Sec :=
      { name := p.caSecretName, labels := p.labels,
        data := [(caCrtKey, ca.bundle), (caKeyKey, ca.keyPEM)], secType := "Opaque" }
    ({ w with secrets := sec :: w.secrets }, [Action.createSec sec], Except.ok ca)
  | some caSecret =>
    match crypto.loadCA ((lookupA caSecret.data caCrtKey).getD [])
        ((lookupA caSecret.data caKeyKey).getD []) with
    | some ca => (w, [], Except.ok ca)
    | none => (w, [], Except.error "could not load impersonation proxy CA")

def certHostnameAndIPMatchDesiredState (desiredIPs : List Bytes) (actualIPs : List Bytes)
    (desiredHostname : String) (actualHostnames : List String) : Bool :=
  if 0 < desiredIPs.length ∧ 0 < actualIPs.length ∧
      actualIPs.length = desiredIPs.length ∧ actualHostnames.length = 0 then
    (actualIPs.zip desiredIPs).all (fun pr => pr.1 == pr.2)
  else if desiredHostname ≠ "" ∧ actualHostnames = [desiredHostname] ∧ actualIPs = [] then
    true
  else false

/-- The distinct failure branches of
`deleteTLSSecretWhenCertificateDoesNotMatchDesiredState`, in source order. -/
inductive CheckFail : Type
  | pemDecodeFail : CheckFail
  | certParseFail : CheckFail
  | keyPairFail : CheckFail
  | verifyFail : CheckFail
  | staleNotReady : CheckFail
  | nameMismatch : CheckFail
deriving DecidableEq

/-- The pure decision chain of
`deleteTLSSecretWhenCertificateDoesNotMatchDesiredState`: which check (if
any) fails first.  Every failure branch of the source performs the same
deletion, so the effect is factored out below. -/
def tlsSecretCheckResult (crypto : Crypto) (nameInfo : CertNameInfo) (ca : CA)
    (secret : Sec) : Option CheckFail :=
  let certPEM := (lookupA secret.data tlsCertKey).getD []
  match crypto.pemDecode certPEM with
  | none => some CheckFail.pemDecodeFail
  | some der =>
    match crypto.parseCert der with
    | none => some CheckFail.certParseFail
    | some actualCert =>
      let keyPEM := (lookupA secret.data tlsPrivateKeyKey).getD []
      if !crypto.keyPairOk certPEM keyPEM then some CheckFail.keyPairFail
      else if !crypto.verifyOk actualCert ca then some CheckFail.verifyFail
      else if !nameInfo.ready then some CheckFail.staleNotReady
      else if certHostnameAndIPMatchDesiredState nameInfo.selectedIPs actualCert.ipAddresses
          nameInfo.selectedHostname actualCert.dnsNames then none
      else some CheckFail.nameMismatch

/-- Outcome of the k8s `Delete` call on the TLS secret. -/
inductive DelOutcome : Type
  | ok : DelOutcome
  | notFound : DelOutcome
  | fail : String → DelOutcome
deriving DecidableEq

/-- `ensureTLSSecretIsRemoved`, with the informer read and the API delete
outcome as explicit inputs (they can disagree when another replica races).
Returns the new value of the TLS serving-certificate provider. -/
def ensureTLSSecretIsRemovedCore (secretExists : Bool) (delRes : DelOutcome)
    (prov : Option (Bytes × Bytes)) : Except String (Option (Bytes × Bytes)) :=
  if !secretExists then Except.ok prov
  else
    match delRes with
    | DelOutcome.notFound => Except.ok prov
    | DelOutcome.fail e => Except.error e
    | DelOutcome.ok => Except.ok none

/-- `ensureTLSSecretIsRemoved` against the consistent store, where the delete
of a present secret succeeds (`DelOutcome.ok`). -/
def ensureTLSSecretIsRemoved (p : Params) (st : CtrlState) (w : World) :
    CtrlState × World × List Action :=
  match findSec w.secrets p.tlsSecretName with
  | none => (st, w, [])
  | some _ =>
    match ensureTLSSecretIsRemovedCore true DelOutcome.ok st.tlsProvider with
    | Except.ok prov =>
      ({ st with tlsProvider := prov },
        { w with secrets := removeSec w.secrets p.tlsSecretName },
        [Action.deleteSec p.tlsSecretName])
    | Except.error _ => (st, w, [])

def deleteTLSSecretWhenCertificateDoesNotMatchDesiredState (crypto : Crypto) (p : Params)
    (nameInfo : CertNameInfo) (ca : CA) (secret : Sec) (st : CtrlState) (w : World) :
    CtrlState × World × List Action × Bool :=
  match tlsSecretCheckResult crypto nameInfo ca secret with
  | none => (st, w, [], false)
  | some _ =>
    let r := ensureTLSSecretIsRemoved p st w
    (r.1, r.2.1, r.2.2, true)

def createNewTLSSecret (crypto : Crypto) (p : Params) (ca : CA) (ips : List Bytes)
    (hostname : String) (w : World) : World × List Action × Except String Sec :=
  let hostnames := if hostname ≠ "" then [hostname] else []
  match crypto.issueServerCert ca hostnames ips with
  | none => (w, [], Except.error "could not create impersonation cert")
  | some cert =>
    match crypto.certToPEM cert with
    | none => (w, [], Except.error "could not encode impersonation cert")
    | some pems =>
      let sec : Sec :=
        { name := p.tlsSecretName, labels := p.labels,
          data := [(tlsPrivateKeyKey, pems.2), (tlsCertKey, pems.1)],
          secType := "kubernetes.io/tls" }
      ({ w with secrets := sec :: w.secrets }, [Action.createSec sec], Except.ok sec)

def loadTLSCertFromSecret (crypto : Crypto) (secret : Sec) (st : CtrlState) :
    CtrlState × Option String :=
  let certPEM := (lookupA secret.data tlsCertKey).getD []
  let keyPEM := (lookupA secret.data tlsPrivateKeyKey).getD []
  if crypto.setServingOk certPEM keyPEM then
    ({ st with tlsProvider := some (certPEM, keyPEM) }, none)
  else
    ({ st with tlsProvider := none }, some "could not parse TLS cert PEM data from Secret")

def ensureTLSSecretIsCreatedAndLoaded (crypto : Crypto) (p : Params)
    (nameInfo : CertNameInfo) (secret? : Option Sec) (ca : CA) (st : CtrlState) (w : World) :
    CtrlState × World × List Action × Option String :=
  match secret? with
  | some secret =>
    let r := loadTLSCertFromSecret crypto secret st
    (r.1, w, [], r.2)
  | none =>
    if !nameInfo.ready then (st, w, [], none)
    else
      match createNewTLSSecret crypto p ca nameInfo.selectedIPs nameInfo.selectedHostname w with
      | (w1, acts, Except.error e) => (st, w1, acts, some e)
      | (w1, acts, Except.ok newSec) =>
        let r := loadTLSCertFromSecret crypto newSec st
        (r.1, w1, acts, r.2)

def ensureTLSSecret (crypto : Crypto) (p : Params) (nameInfo : CertNameInfo) (ca : CA)
    (st : CtrlState) (w : World) : CtrlState × World × List Action × Option String :=
  match findSec w.secrets p.tlsSecretName with
  | none => ensureTLSSecretIsCreatedAndLoaded crypto p nameInfo none ca st w
  | some secret =>
    let rDel := deleteTLSSecretWhenCertificateDoesNotMatchDesiredState crypto p nameInfo ca
      secret st w
    let secret2 := if rDel.2.2.2 then none else some secret
    let r := ensureTLSSecretIsCreatedAndLoaded crypto p nameInfo secret2 ca rDel.1 rDel.2.1
    (r.1, r.2.1, rDel.2.2.1 ++ r.2.2.1, r.2.2.2)

/-! ## Status composer and signing credential loader -/

def doSyncResult (now : Nat) (hasCP : Bool) (nameInfo : CertNameInfo) (config : ProxySpec)
    (ca : Option CA) : Strategy :=
  if disabledExplicitly config then
    { status := StrategyStatus.error, reason := StrategyReason.disabled,
      message := "impersonation proxy was explicitly disabled by configuration",
      lastUpdateTime := now, frontend := none }
  else if disabledByAutoMode hasCP config then
    { status := StrategyStatus.error, reason := StrategyReason.disabled,
      message := "automatically determined that impersonation proxy should be disabled",
      lastUpdateTime := now, frontend := none }
  else if !nameInfo.ready then
    { status := StrategyStatus.error, reason := StrategyReason.pending,
      message := "waiting for load balancer Service to be assigned IP or hostname",
      lastUpdateTime := now, frontend := none }
  else
    { status := StrategyStatus.success, reason := StrategyReason.listening,
      message := "impersonation proxy is ready to accept client connections",
      lastUpdateTime := now,
      frontend := some
        { endpoint := "https://" ++ nameInfo.clientEndpoint,
          certificateAuthorityData :=
            base64Encode ((ca.getD { bundle := [], keyPEM := [] }).bundle) } }

def loadSignerCA (crypto : Crypto) (p : Params) (status : StrategyStatus) (st : CtrlState)
    (w : World) : CtrlState × Option String :=
  if status ≠ StrategyStatus.success then ({ st with signerProvider := none }, none)
  else
    match findSec w.secrets p.signerSecretName with
    | none => (st, some "could not load the impersonator's credential signing secret")
    | some sec =>
      let certPEM := (lookupA sec.data caCrtKey).getD []
      let keyPEM := (lookupA sec.data caKeyKey).getD []
      if crypto.setSigningOk certPEM keyPEM then
        ({ st with signerProvider := some (certPEM, keyPEM) }, none)
      else (st, some "could not load the impersonator's credential signing secret")

/-! ## doSync -/

structure SyncOut : Type where
  ctrl : CtrlState
  world : World
  actions : List Action
  result : Except String Strategy

/-- The service phase of `doSync`: ensure/tear down the load balancer, then
the cluster-IP service, in source order. -/
def syncServicesStep (p : Params) (hasCP : Bool) (config : ProxySpec) (w : World) :
    World × List Action :=
  let rLB :=
    if shouldHaveLoadBalancer hasCP config then ensureLoadBalancerIsStarted p config w
    else ensureLoadBalancerIsStopped p w
  let rCIP :=
    if shouldHaveClusterIPService hasCP config then
      ensureClusterIPServiceIsStarted p config rLB.1
    else ensureClusterIPServiceIsStopped p rLB.1
  (rCIP.1, rLB.2 ++ rCIP.2)

/-- The CA/TLS phase of `doSync`: when a TLS secret is desired, ensure the CA
then the TLS secret; otherwise remove the TLS secret.  Returns the new
controller state, world, actions, an error, and the loaded CA (which is `none`
exactly when no TLS secret is desired, matching `impersonationCA` staying nil). -/
def syncTLSStep (crypto : Crypto) (p : Params) (hasCP : Bool) (config : ProxySpec)
    (nameInfo : CertNameInfo) (st : CtrlState) (w : World) :
    CtrlState × World × List Action × Option String × Option CA :=
  if shouldHaveTLSSecret hasCP config then
    match ensureCASecretIsCreated crypto p w with
    | (w3, acts3, Except.error e) => (st, w3, acts3, some e, none)
    | (w3, acts3, Except.ok ca) =>
      let r := ensureTLSSecret crypto p nameInfo ca st w3
      (r.1, r.2.1, acts3 ++ r.2.2.1, r.2.2.2, some ca)
  else
    let r := ensureTLSSecretIsRemoved p st w
    (r.1, r.2.1, r.2.2, none, none)

/-- `doSync` (lines 231-308).  `queryHasCP` is the result of the live
control-plane query made on the first pass; `exitErr` is the exit value the
background proxy task would deliver if the controller blocks stopping it;
`now` is the clock reading. -/
def doSync (crypto : Crypto) (p : Params) (queryHasCP : Bool) (exitErr : Option String)
    (now : Nat) (spec? : Option ProxySpec) (st0 : CtrlState) (w0 : World) : SyncOut :=
  match loadImpersonationProxyConfiguration spec? with
  | Except.error e => { ctrl := st0, world := w0, actions := [], result := Except.error e }
  | Except.ok config =>
    let hasCP := st0.hasControlPlaneNodes.getD queryHasCP
    let st1 := { st0 with hasControlPlaneNodes := some hasCP }
    let rImp :=
      if shouldHaveImpersonator hasCP config then ensureImpersonatorIsStarted st1
      else ensureImpersonatorIsStopped true exitErr st1
    match rImp with
    | (st2, some e) => { ctrl := st2, world := w0, actions := [], result := Except.error e }
    | (st2, none) =>
      let rSvc := syncServicesStep p hasCP config w0
      let w2 := rSvc.1
      let acts2 := rSvc.2
      match findDesiredTLSCertificateName p config w2.services with
      | Except.error e =>
        { ctrl := { st2 with tlsProvider := none }, world := w2, actions := acts2,
          result := Except.error e }
      | Except.ok nameInfo =>
        match syncTLSStep crypto p hasCP config nameInfo st2 w2 with
        | (st4, w4, acts4, some e, _) =>
          { ctrl := st4, world := w4, actions := acts2 ++ acts4, result := Except.error e }
        | (st4, w4, acts4, none, ca) =>
          let strat := doSyncResult now hasCP nameInfo config ca
          let rSign := loadSignerCA crypto p strat.status st4 w4
          match rSign.2 with
          | some e =>
            { ctrl := rSign.1, world := w4, actions := acts2 ++ acts4,
              result := Except.error e }
          | none =>
            { ctrl := rSign.1, world := w4, actions := acts2 ++ acts4,
              result := Except.ok strat }

/-! ## Claim-side definitions (phrased from the specification's words, for
comparison against the source-derived definitions above) -/

/-- C3's exact-match semantics, written from the claim's words: IP case, equal
non-zero counts of IPs in the same order and zero DNS names; hostname case,
exactly one DNS name equal to the desired hostname and zero IPs. -/
def specExactNameMatch (desiredIPs : List Bytes) (actualIPs : List Bytes)
    (desiredHostname : String) (actualHostnames : List String) : Bool :=
  (decide (desiredIPs ≠ []) && decide (actualIPs = desiredIPs) && decide (actualHostnames = []))
  || (decide (desiredHostname ≠ "") && decide (actualHostnames = [desiredHostname]) &&
      decide (actualIPs = []))

/-- C3's six ordered conditions, written from the claim: (a) certificate PEM
decodes, (b) decoded bytes parse as a certificate, (c) certificate and key form
a valid key pair, (d) certificate verifies against the CA pool, (e) the name
resolver is ready, (f) exact name match; the first failing condition wins. -/
def specSixCheckCascade (crypto : Crypto) (nameInfo : CertNameInfo) (ca : CA)
    (secret : Sec) : Option CheckFail :=
  let certPEM := (lookupA secret.data tlsCertKey).getD []
  let keyPEM := (lookupA secret.data tlsPrivateKeyKey).getD []
  let cert? := (crypto.pemDecode certPEM).bind crypto.parseCert
  let condA := (crypto.pemDecode certPEM).isSome
  let condB := cert?.isSome
  let condC := crypto.keyPairOk certPEM keyPEM
  let condD := match cert? with | some cert => crypto.verifyOk cert ca | none => false
  let condE := nameInfo.ready
  let condF :=
    match cert? with
    | some cert => specExactNameMatch nameInfo.selectedIPs cert.ipAddresses
        nameInfo.selectedHostname cert.dnsNames
    | none => false
  if !condA then some CheckFail.pemDecodeFail
  else if !condB then some CheckFail.certParseFail
  else if !condC then some CheckFail.keyPairFail
  else if !condD then some CheckFail.verifyFail
  else if !condE then some CheckFail.staleNotReady
  else if !condF then some CheckFail.nameMismatch
  else none

/-- Coherence of real-world certificate issuance (facts of `certauthority` and
the Go crypto stdlib): a certificate issued for given hostnames/IPs and encoded
to PEM decodes and parses back to itself, carries exactly those names, pairs
with its key, verifies against the issuing CA, and loads into a provider. -/
def CryptoRoundTrip (c : Crypto) : Prop :=
  ∀ ca hostnames ips cert certPEM keyPEM,
    c.issueServerCert ca hostnames ips = some cert →
    c.certToPEM cert = some (certPEM, keyPEM) →
    cert.ipAddresses = ips ∧ cert.dnsNames = hostnames ∧
    (∃ der, c.pemDecode certPEM = some der ∧ c.parseCert der = some cert) ∧
    c.keyPairOk certPEM keyPEM = true ∧ c.verifyOk cert ca = true ∧
    c.setServingOk certPEM keyPEM = true

/-- `CryptoRoundTrip` plus: a freshly generated CA persisted as its two PEM
blobs loads back to itself (a fact of `certauthority.New` + `Load`). -/
def CryptoCoherent (c : Crypto) : Prop :=
  CryptoRoundTrip c ∧ c.loadCA c.newCA.bundle c.newCA.keyPEM = some c.newCA

/-- The invariant of resolver-produced name info: when ready, either a
non-empty IP set with no hostname, or a hostname with no IPs. -/
def NameInfoWF (n : CertNameInfo) : Prop :=
  n.ready = true →
    (n.selectedIPs ≠ [] ∧ n.selectedHostname = "") ∨
    (n.selectedIPs = [] ∧ n.selectedHostname ≠ "")

/-- The proxy-process start/stop step of a sync pass reports no error (no
crash was pending on the error channel, and stopping returned no error). -/
def impStepOk (queryHasCP : Bool) (exitErr : Option String) (spec? : Option ProxySpec)
    (st0 : CtrlState) : Prop :=
  ∀ config, loadImpersonationProxyConfiguration spec? = Except.ok config →
    (if shouldHaveImpersonator (st0.hasControlPlaneNodes.getD queryHasCP) config then
      ensureImpersonatorIsStarted
        { st0 with hasControlPlaneNodes := some (st0.hasControlPlaneNodes.getD queryHasCP) }
    else
      ensureImpersonatorIsStopped true exitErr
        { st0 with hasControlPlaneNodes := some (st0.hasControlPlaneNodes.getD queryHasCP) }).2
      = none

/-! ## Proof-infrastructure predicates for the idempotence analysis -/

/-- A stored service `e` is stable for the bookkeeping-augmented desired
service `d'` with desired key list `keys`: re-running the update construction
on `e` changes nothing observable. -/
def StableFor (d' : Svc) (keys : List String) (e : Svc) : Prop :=
  e.labels = d'.labels ∧ e.selector = d'.selector ∧ e.svcType = d'.svcType ∧
  e.loadBalancerIP = d'.loadBalancerIP ∧
  (∀ k, (lookupA d'.anns k).isSome → lookupA e.anns k = lookupA d'.anns k) ∧
  (keys = [] → lookupA e.anns annKeysKey = none) ∧
  (∀ k ∈ oldBookkeepingKeys e, (lookupA d'.anns k).isSome = true)

/-- A stored service value at the desired name that makes
`createOrUpdateService` skip the update on any store containing it. -/
def SvcNoopAt (desired0 : Svc) (e : Svc) : Prop :=
  ∀ w : World, findSvc w.services desired0.name = some e →
    createOrUpdateService w desired0 = (w, [])

/-- The state of the TLS secret in the store after one `ensureTLSSecret` run:
either absent while the resolver is not ready, or present and passing the full
validation chain, or absent with certificate creation failing before the
store call. -/
def TLSPost (crypto : Crypto) (p : Params) (nameInfo : CertNameInfo) (ca : CA)
    (w : World) : Prop :=
  (findSec w.secrets p.tlsSecretName = none ∧ nameInfo.ready = false) ∨
  (∃ sec, findSec w.secrets p.tlsSecretName = some sec ∧
    tlsSecretCheckResult crypto nameInfo ca sec = none) ∨
  (findSec w.secrets p.tlsSecretName = none ∧
    (crypto.issueServerCert ca
        (if nameInfo.selectedHostname ≠ "" then [nameInfo.selectedHostname] else [])
        nameInfo.selectedIPs = none ∨
      (∃ cert, crypto.issueServerCert ca
          (if nameInfo.selectedHostname ≠ "" then [nameInfo.selectedHostname] else [])
          nameInfo.selectedIPs = some cert ∧ crypto.certToPEM cert = none)))

/-! ## Concrete fixtures for witnesses and counterexamples -/

def exParams : Params :=
  { loadBalancerSvcName := "lb", clusterIPSvcName := "cip", tlsSecretName := "tls",
    caSecretName := "ca", signerSecretName := "signer", labels := [("app", "concierge")] }

def emptyWorld : World := { services := [], secrets := [] }

def freshState : CtrlState :=
  { hasControlPlaneNodes := none, serverRunning := false, errChClosed := false,
    errChVal := none, tlsProvider := none, signerProvider := none }

def runningCleanState : CtrlState :=
  { hasControlPlaneNodes := some false, serverRunning := true, errChClosed := false,
    errChVal := none, tlsProvider := none, signerProvider := none }

def crashedState : CtrlState :=
  { hasControlPlaneNodes := none, serverRunning := true, errChClosed := false,
    errChVal := some (some "proxy crashed"), tlsProvider := none, signerProvider := none }

def enabledSpec : ProxySpec :=
  { mode := "enabled", svcType := "LoadBalancer", loadBalancerIP := "",
    externalEndpoint := "", anns := [] }

def disabledSpec : ProxySpec :=
  { mode := "disabled", svcType := "LoadBalancer", loadBalancerIP := "",
    externalEndpoint := "", anns := [] }

def autoSpec : ProxySpec :=
  { mode := "auto", svcType := "LoadBalancer", loadBalancerIP := "",
    externalEndpoint := "", anns := [] }

/-- A load balancer whose first ingress entry is entirely empty while the
second carries a hostname. -/
def cexLB : Svc :=
  { name := "lb", labels := [], anns := [], selector := [], svcType := "LoadBalancer",
    loadBalancerIP := "", ports := [], clusterIP := "", clusterIPs := [],
    ingress := [{ hostname := "", ip := "" }, { hostname := "host.example.com", ip := "" }] }

/-- A load balancer whose first ingress entry carries an unparseable IP and the
second a parseable one, with no hostnames anywhere. -/
def ipOnlyLB : Svc :=
  { name := "lb", labels := [], anns := [], selector := [], svcType := "LoadBalancer",
    loadBalancerIP := "", ports := [], clusterIP := "", clusterIPs := [],
    ingress := [{ hostname := "", ip := "garbage" }, { hostname := "", ip := "5.6.7.8" }] }

/-- The existing exposure service of the annotation-bookkeeping example:
annotations {a:1, b:2} with bookkeeping list ["a","b"]. -/
def exExisting : Svc :=
  { name := "lb", labels := [("app", "concierge")],
    anns := [("a", "1"), ("b", "2"), (annKeysKey, "[\"a\",\"b\"]")],
    selector := [("app", "concierge")], svcType := "LoadBalancer", loadBalancerIP := "",
    ports := [{ targetPort := 8444, port := 443, protocol := "TCP" }],
    clusterIP := "", clusterIPs := [], ingress := [] }

/-- The same service desired with annotation set {b:2, c:3}. -/
def exDesired : Svc := { exExisting with anns := [("b", "2"), ("c", "3")] }

/-- The resolved name info `{ready: true, selectedIPs: [10.0.0.5]}` of the
round-trip property. -/
def nameInfo1005 : CertNameInfo :=
  { ready := true, selectedIPs := [[10, 0, 0, 5]], selectedHostname := "",
    clientEndpoint := "10.0.0.5" }

/-- A small concrete crypto oracle: it issues exactly one certificate (for
`[10.0.0.5]` and no hostnames) with fixed PEM encodings, and loads exactly its
own generated CA. -/
def toyCrypto : Crypto :=
  { pemDecode := fun b => if b = [7] then some [9] else none
    parseCert := fun b =>
      if b = [9] then some { ipAddresses := [[10, 0, 0, 5]], dnsNames := [] } else none
    keyPairOk := fun _ _ => true
    verifyOk := fun _ _ => true
    setServingOk := fun _ _ => true
    setSigningOk := fun _ _ => true
    newCA := { bundle := [1], keyPEM := [2] }
    loadCA := fun b k =>
      if b = [1] ∧ k = [2] then some { bundle := [1], keyPEM := [2] } else none
    issueServerCert := fun _ hs ips =>
      if hs = ([] : List String) ∧ ips = [[10, 0, 0, 5]] then
        some { ipAddresses := ips, dnsNames := hs }
      else none
    certToPEM := fun c =>
      if c = { ipAddresses := [[10, 0, 0, 5]], dnsNames := [] } then some ([7], [8])
      else none }

def toyCA : CA := { bundle := [1], keyPEM := [2] }

/-- A TLS secret whose certificate bytes do not PEM-decode under
`toyCrypto`. -/
def badTLSSec : Sec :=
  { name := "tls", labels := [], data := [(tlsCertKey, [0]), (tlsPrivateKeyKey, [0])],
    secType := "kubernetes.io/tls" }

/-- The TLS secret `createNewTLSSecret` builds from `toyCrypto` for
`nameInfo1005`. -/
def toySec : Sec :=
  { name := "tls", labels := [("app", "concierge")],
    data := [(tlsPrivateKeyKey, [8]), (tlsCertKey, [7])], secType := "kubernetes.io/tls" }

/-! ## Lemmas: the association-list map model -/

theorem lookupA_nil {α : Type} (k : String) : lookupA ([] : List (String × α)) k = none := rfl

theorem lookupA_cons {α : Type} (k1 : String) (v : α) (m : List (String × α)) (k : String) :
    lookupA ((k1, v) :: m) k = if k1 = k then some v else lookupA m k := by
  simp only [lookupA, List.find?_cons]
  by_cases h : k1 = k
  · simp [h]
  · have hb : ((k1, v).1 == k) = false := by simpa using h
    simp [hb, h]

theorem lookupA_filter_ne {α : Type} (m : List (String × α)) (k k' : String) :
    lookupA (m.filter (fun p => p.1 != k)) k' =
      if k' = k then none else lookupA m k' := by
  induction m with
  | nil => simp [lookupA]
  | cons p m ih =>
    obtain ⟨k1, v⟩ := p
    by_cases h1 : k1 = k
    · subst h1
      have hdrop : List.filter (fun p => p.1 != k1) ((k1, v) :: m)
          = List.filter (fun p => p.1 != k1) m := by
        simp [List.filter_cons]
      rw [hdrop, ih, lookupA_cons]
      by_cases h2 : k' = k1
      · simp [h2]
      · have h3 : ¬ k1 = k' := fun hh => h2 hh.symm
        simp [h2, h3]
    · have hkeep : List.filter (fun p => p.1 != k) ((k1, v) :: m)
          = (k1, v) :: List.filter (fun p => p.1 != k) m := by
        simp [List.filter_cons, h1]
      rw [hkeep, lookupA_cons, lookupA_cons, ih]
      by_cases h2 : k1 = k'
      · have h3 : ¬ k' = k := fun hh => h1 (h2.trans hh)
        simp [h2, h3]
      · by_cases h4 : k' = k
        · simp [h2, h4, h1]
        · simp [h2, h4]

theorem lookupA_insertA {α : Type} (m : List (String × α)) (k : String) (v : α) (k' : String) :
    lookupA (insertA m k v) k' = if k' = k then some v else lookupA m k' := by
  unfold insertA
  rw [lookupA_cons]
  by_cases h : k' = k
  · simp [h]
  · have h2 : ¬ k = k' := fun hh => h hh.symm
    simp [h, h2, lookupA_filter_ne]

theorem lookupA_eraseA {α : Type} (m : List (String × α)) (k : String) (k' : String) :
    lookupA (eraseA m k) k' = if k' = k then none else lookupA m k' := by
  unfold eraseA; exact lookupA_filter_ne m k k'

theorem lookupA_overlayA {α : Type} (m d : List (String × α)) (k : String) :
    lookupA (overlayA m d) k = orElseA (lookupA d k) (lookupA m k) := by
  induction d with
  | nil => rfl
  | cons p d ih =>
    obtain ⟨k1, v⟩ := p
    show lookupA (insertA (overlayA m d) k1 v) k = _
    rw [lookupA_insertA, lookupA_cons]
    by_cases h : k = k1
    · subst h; simp [orElseA]
    · have h2 : ¬ k1 = k := fun hh => h hh.symm
      simp [h, h2, ih]

theorem lookupA_isSome_of_mem_keys {α : Type} (m : List (String × α)) (k : String)
    (h : k ∈ keysOf m) : (lookupA m k).isSome = true := by
  unfold keysOf at h
  rw [List.mem_dedup, List.mem_map] at h
  obtain ⟨p, hp, hpk⟩ := h
  induction m with
  | nil => simp at hp
  | cons q m ih =>
    obtain ⟨k1, v⟩ := q
    rw [lookupA_cons]
    by_cases h2 : k1 = k
    · simp [h2]
    · rcases List.mem_cons.mp hp with h1 | h1
      · rw [h1] at hpk; exact absurd hpk h2
      · simp [h2, ih h1]

theorem mapEqb_of_ext {α : Type} [DecidableEq α] (m1 m2 : List (String × α))
    (h : ∀ k, lookupA m1 k = lookupA m2 k) : mapEqb m1 m2 = true := by
  unfold mapEqb
  rw [Bool.and_eq_true, List.all_eq_true, List.all_eq_true]
  constructor
  · intro p _; exact decide_eq_true (h p.1).symm
  · intro p _; exact decide_eq_true (h p.1)

theorem mapEqb_refl {α : Type} [DecidableEq α] (m : List (String × α)) :
    mapEqb m m = true :=
  mapEqb_of_ext m m (fun _ => rfl)

/-! ## Lemmas: JSON round trip -/

theorem decAux_esc (k : List Char) : ∀ (cur : List Char) (acc : List String) (rest : List Char),
    decAux (JState.inStr cur) acc (escList k ++ '"' :: rest) =
      decAux JState.afterItem (acc ++ [String.mk (cur.reverse ++ k)]) rest := by
  induction k with
  | nil =>
    intro cur acc rest
    simp only [escList, List.foldr_nil, List.nil_append, List.append_nil]
    show decAux (JState.inStr cur) acc ('"' :: rest) = _
    simp [decAux]
  | cons c k ih =>
    intro cur acc rest
    by_cases h : c = '"' ∨ c = '\\'
    · have he : escList (c :: k) = '\\' :: c :: escList k := by
        simp [escList, h]
      rw [he]
      show decAux (JState.inStr cur) acc ('\\' :: (c :: (escList k ++ '"' :: rest))) = _
      rw [show decAux (JState.inStr cur) acc ('\\' :: (c :: (escList k ++ '"' :: rest)))
            = decAux (JState.inEsc cur) acc (c :: (escList k ++ '"' :: rest)) by simp [decAux]]
      rw [show decAux (JState.inEsc cur) acc (c :: (escList k ++ '"' :: rest))
            = decAux (JState.inStr (c :: cur)) acc (escList k ++ '"' :: rest) by simp [decAux]]
      rw [ih (c :: cur) acc rest]
      simp
    · push_neg at h
      have he : escList (c :: k) = c :: escList k := by
        simp [escList, h.1, h.2]
      rw [he]
      show decAux (JState.inStr cur) acc (c :: (escList k ++ '"' :: rest)) = _
      rw [show decAux (JState.inStr cur) acc (c :: (escList k ++ '"' :: rest))
            = decAux (JState.inStr (c :: cur)) acc (escList k ++ '"' :: rest) by
          simp [decAux, h.1, h.2]]
      rw [ih (c :: cur) acc rest]
      simp

theorem decAux_quote (k : String) (acc : List String) (rest : List Char) :
    decAux (JState.inStr []) acc (escList k.data ++ '"' :: rest) =
      decAux JState.afterItem (acc ++ [k]) rest := by
  rw [decAux_esc k.data [] acc rest]
  simp only [List.reverse_nil, List.nil_append]

theorem decAux_body (ks : List String) : ∀ (acc : List String), ks ≠ [] →
    decAux JState.item acc (bodyList ks ++ [']']) = some (acc ++ ks) := by
  induction ks with
  | nil => intro acc h; exact absurd rfl h
  | cons k ks ih =>
    intro acc _
    cases ks with
    | nil =>
      show decAux JState.item acc (quoteList k ++ [']']) = _
      rw [show quoteList k ++ [']'] = '"' :: (escList k.data ++ '"' :: [']']) by
        simp [quoteList]]
      rw [show decAux JState.item acc ('"' :: (escList k.data ++ '"' :: [']']))
            = decAux (JState.inStr []) acc (escList k.data ++ '"' :: [']']) by simp [decAux]]
      rw [decAux_quote k acc [']']]
      simp [decAux]
    | cons k2 ks2 =>
      show decAux JState.item acc ((quoteList k ++ ',' :: bodyList (k2 :: ks2)) ++ [']']) = _
      rw [show (quoteList k ++ ',' :: bodyList (k2 :: ks2)) ++ [']']
            = '"' :: (escList k.data ++ '"' :: (',' :: (bodyList (k2 :: ks2) ++ [']']))) by
          simp [quoteList]]
      rw [show decAux JState.item acc
              ('"' :: (escList k.data ++ '"' :: (',' :: (bodyList (k2 :: ks2) ++ [']']))))
            = decAux (JState.inStr []) acc
              (escList k.data ++ '"' :: (',' :: (bodyList (k2 :: ks2) ++ [']']))) by
          simp [decAux]]
      rw [decAux_quote k acc (',' :: (bodyList (k2 :: ks2) ++ [']']))]
      rw [show decAux JState.afterItem (acc ++ [k]) (',' :: (bodyList (k2 :: ks2) ++ [']']))
            = decAux JState.item (acc ++ [k]) (bodyList (k2 :: ks2) ++ [']']) by simp [decAux]]
      rw [ih (acc ++ [k]) (by simp)]
      simp

/-- Unmarshalling inverts marshalling for every list of strings, as in Go's
`encoding/json` for `[]string`. -/
theorem jsonRoundTrip (ks : List String) :
    jsonUnmarshalStrings (jsonMarshalStrings ks) = some ks := by
  unfold jsonUnmarshalStrings jsonMarshalStrings
  cases ks with
  | nil => rfl
  | cons k ks =>
    show decAux JState.first [] (bodyList (k :: ks) ++ [']']) = some (k :: ks)
    have hfirst : decAux JState.first [] (bodyList (k :: ks) ++ [']'])
        = decAux JState.item [] (bodyList (k :: ks) ++ [']']) := by
      cases ks with
      | nil =>
        show decAux JState.first [] (quoteList k ++ [']']) = _
        rw [show quoteList k ++ [']'] = '"' :: (escList k.data ++ '"' :: [']']) by
          simp [quoteList]]
        simp [decAux]
      | cons k2 ks2 =>
        show decAux JState.first [] ((quoteList k ++ ',' :: bodyList (k2 :: ks2)) ++ [']']) = _
        rw [show (quoteList k ++ ',' :: bodyList (k2 :: ks2)) ++ [']']
              = '"' :: (escList k.data ++ '"' :: (',' :: (bodyList (k2 :: ks2) ++ [']']))) by
            simp [quoteList]]
        simp [decAux]
    rw [hfirst, decAux_body (k :: ks) [] (by simp)]
    simp

/-! ## Claim C4: desired-state booleans -/

/-- C4: for every spec and cached control-plane flag, the four desired-state
booleans satisfy: shouldHaveImpersonator = (mode = enabled) OR (mode = auto AND
NOT hasControlPlane); shouldHaveLoadBalancer = shouldHaveImpersonator AND
serviceType = loadBalancer; shouldHaveClusterIP = shouldHaveImpersonator AND
serviceType = clusterIP; shouldHaveTLSSecret = shouldHaveImpersonator. -/
theorem c4_desired_state_booleans (hasCP : Bool) (config : ProxySpec) :
    shouldHaveImpersonator hasCP config
      = ((config.mode == modeEnabled) || ((config.mode == modeAuto) && !hasCP)) ∧
    shouldHaveLoadBalancer hasCP config
      = (shouldHaveImpersonator hasCP config && (config.svcType == svcTypeLoadBalancer)) ∧
    shouldHaveClusterIPService hasCP config
      = (shouldHaveImpersonator hasCP config && (config.svcType == svcTypeClusterIP)) ∧
    shouldHaveTLSSecret hasCP config = shouldHaveImpersonator hasCP config := by
  refine ⟨?_, rfl, rfl, rfl⟩
  simp [shouldHaveImpersonator, enabledByAutoMode, Bool.or_comm]

/-! ## Claim C10: frame of the service update path -/

/-- C10: the update path writes only labels, spec.loadBalancerIP, spec.type,
spec.selector (and the merged annotations) onto a copy of the stored service;
every other stored field — name, ports, clusterIP(s), ingress — keeps its
existing value, so drift in those fields is never corrected. -/
theorem c10_update_frame (desired : Svc) (desiredKeys : List String) (existing : Svc) :
    (buildUpdatedService desired desiredKeys existing).name = existing.name ∧
    (buildUpdatedService desired desiredKeys existing).ports = existing.ports ∧
    (buildUpdatedService desired desiredKeys existing).clusterIP = existing.clusterIP ∧
    (buildUpdatedService desired desiredKeys existing).clusterIPs = existing.clusterIPs ∧
    (buildUpdatedService desired desiredKeys existing).ingress = existing.ingress ∧
    (buildUpdatedService desired desiredKeys existing).labels = desired.labels ∧
    (buildUpdatedService desired desiredKeys existing).loadBalancerIP
      = desired.loadBalancerIP ∧
    (buildUpdatedService desired desiredKeys existing).svcType = desired.svcType ∧
    (buildUpdatedService desired desiredKeys existing).selector = desired.selector :=
  ⟨rfl, rfl, rfl, rfl, rfl, rfl, rfl, rfl, rfl⟩

/-! ## Claim C6: Start while running -/

/-- C6: whenever Start is called while the server is recorded as running: an
empty error channel makes Start a no-op returning no error; a buffered value v
(a Go nil treated as "unexpected shutdown of proxy server") makes Start drain
and close the channel, run the Stop procedure (whose stop error is nil here,
the channel being closed), and return the aggregated crash error, so the pass
fails and a later sync can restart the server. -/
theorem c6_start_crash_detection (st : CtrlState) (v : Option String) :
    (st.serverRunning = true → st.errChVal = none →
      ensureImpersonatorIsStarted st = (st, none)) ∧
    (st.serverRunning = true → st.errChVal = some v →
      ensureImpersonatorIsStarted st =
        ({ st with serverRunning := false, errChVal := none, errChClosed := false },
          some (v.getD "unexpected shutdown of proxy server"))) := by
  obtain ⟨cp, run, closed, ev, tp, sp⟩ := st
  constructor
  · intro h1 h2
    simp only at h1 h2
    subst h1; subst h2
    rfl
  · intro h1 h2
    simp only at h1 h2
    subst h1; subst h2
    cases v <;> rfl

theorem c6_start_crash_detection_witness :
    ensureImpersonatorIsStarted runningCleanState = (runningCleanState, none) ∧
    ensureImpersonatorIsStarted crashedState =
      ({ crashedState with serverRunning := false, errChVal := none, errChClosed := false },
        some "proxy crashed") :=
  ⟨(c6_start_crash_detection runningCleanState none).1 rfl rfl,
   (c6_start_crash_detection crashedState (some "proxy crashed")).2 rfl rfl⟩

/-! ## Claim C9: TLS secret removal and the provider (corrected) -/

/-- C9 counterexample: when the delete call returns not-found, the operation
completes without error but the serving-certificate provider is NOT cleared
(the source returns before `UnsetCertKeyContent`), contradicting the claim
that the provider is cleared on every such successful completion. -/
theorem c9_counterexample :
    ensureTLSSecretIsRemovedCore true DelOutcome.notFound (some ([1], [2]))
      = Except.ok (some ([1], [2])) ∧
    some (([1], [2]) : Bytes × Bytes) ≠ none :=
  ⟨rfl, by decide⟩

/-- C9 (amended): every invocation in which the secret exists and the delete
call either succeeds or returns not-found completes without error; the
provider is cleared when the delete succeeds, and left unchanged when the
delete returns not-found (and when the secret was already absent). -/
theorem c9_remove_tolerates_notfound (prov : Option (Bytes × Bytes)) :
    ensureTLSSecretIsRemovedCore true DelOutcome.ok prov = Except.ok none ∧
    ensureTLSSecretIsRemovedCore true DelOutcome.notFound prov = Except.ok prov ∧
    ensureTLSSecretIsRemovedCore false DelOutcome.ok prov = Except.ok prov :=
  ⟨rfl, rfl, rfl⟩

/-! ## Claim C2: status composition (corrected) -/

/-- C2 counterexample: the explicitly-disabled case and the
automatically-disabled case produce the SAME strategy reason (the source uses
`v1alpha1.DisabledStrategyReason` in both branches), so they cannot carry the
two distinct reasons "disabled-explicitly" and "disabled-automatically" that
the claim states. -/
theorem c2_counterexample :
    disabledExplicitly disabledSpec = true ∧
    disabledByAutoMode true autoSpec = true ∧
    disabledExplicitly autoSpec = false ∧
    (doSyncResult 0 true notReadyNameInfo disabledSpec none).reason
      = (doSyncResult 0 true notReadyNameInfo autoSpec none).reason := by
  refine ⟨by decide, by decide, by decide, rfl⟩

/-- C2 (amended): the composed status is determined in priority order: mode
explicitly disabled yields an error status with the Disabled reason and the
explicit-disable message; disabled by automatic policy yields an error status
with the same Disabled reason and the automatic-disable message; certificate
name not ready yields an error status with the Pending reason; otherwise a
success status with the Listening reason carrying "https://" ++ clientEndpoint
and the base64-encoded CA bundle. -/
theorem c2_status_priority (now : Nat) (hasCP : Bool) (nameInfo : CertNameInfo)
    (config : ProxySpec) (ca : Option CA) (cav : CA) :
    (disabledExplicitly config = true →
      doSyncResult now hasCP nameInfo config ca
        = { status := StrategyStatus.error, reason := StrategyReason.disabled,
            message := "impersonation proxy was explicitly disabled by configuration",
            lastUpdateTime := now, frontend := none }) ∧
    (disabledExplicitly config = false → disabledByAutoMode hasCP config = true →
      doSyncResult now hasCP nameInfo config ca
        = { status := StrategyStatus.error, reason := StrategyReason.disabled,
            message := "automatically determined that impersonation proxy should be disabled",
            lastUpdateTime := now, frontend := none }) ∧
    (disabledExplicitly config = false → disabledByAutoMode hasCP config = false →
      nameInfo.ready = false →
      doSyncResult now hasCP nameInfo config ca
        = { status := StrategyStatus.error, reason := StrategyReason.pending,
            message := "waiting for load balancer Service to be assigned IP or hostname",
            lastUpdateTime := now, frontend := none }) ∧
    (disabledExplicitly config = false → disabledByAutoMode hasCP config = false →
      nameInfo.ready = true →
      doSyncResult now hasCP nameInfo config (some cav)
        = { status := StrategyStatus.success, reason := StrategyReason.listening,
            message := "impersonation proxy is ready to accept client connections",
            lastUpdateTime := now,
            frontend := some
              { endpoint := "https://" ++ nameInfo.clientEndpoint,
                certificateAuthorityData := base64Encode cav.bundle } }) := by
  refine ⟨fun h1 => ?_, fun h1 h2 => ?_, fun h1 h2 h3 => ?_, fun h1 h2 h3 => ?_⟩
  · simp [doSyncResult, h1]
  · simp [doSyncResult, h1, h2]
  · simp [doSyncResult, h1, h2, h3]
  · simp [doSyncResult, h1, h2, h3]

theorem c2_status_priority_witness :
    doSyncResult 5 true nameInfo1005 enabledSpec (some toyCA)
      = { status := StrategyStatus.success, reason := StrategyReason.listening,
          message := "impersonation proxy is ready to accept client connections",
          lastUpdateTime := 5,
          frontend := some
            { endpoint := "https://10.0.0.5",
              certificateAuthorityData := base64Encode toyCA.bundle } } :=
  (c2_status_priority 5 true nameInfo1005 enabledSpec none toyCA).2.2.2
    (by decide) (by decide) (by decide)

/-! ## Claim C1: load-balancer name resolution (corrected) -/

theorem firstHostnameIngress_eq_find (l : List IngressEntry) :
    firstHostnameIngress l = l.find? (fun i => i.hostname != "") := by
  induction l with
  | nil => rfl
  | cons i l ih =>
    by_cases h : i.hostname = ""
    · simp [firstHostnameIngress, List.find?_cons, h, ih]
    · simp [firstHostnameIngress, List.find?_cons, h, ih]

theorem firstParseableIPIngress_eq_findSome (l : List IngressEntry) :
    firstParseableIPIngress l
      = l.findSome? (fun i => (parseIPv4 i.ip).map (fun b => (i, b))) := by
  induction l with
  | nil => rfl
  | cons i l ih =>
    cases h : parseIPv4 i.ip <;>
      simp [firstParseableIPIngress, List.findSome?_cons, h, ih]

/-- C1 counterexample: the load-balancer service exists, its ingress list is
non-empty and an entry carries a hostname, yet the resolver reports not-ready
(the source's emptiness guard inspects only `ingresses[0]`), contradicting the
claimed ready = true with that hostname. -/
theorem c1_counterexample :
    cexLB.ingress ≠ [] ∧
    (∃ e ∈ cexLB.ingress, e.hostname ≠ "") ∧
    findTLSCertificateNameFromLoadBalancer exParams [cexLB] = Except.ok notReadyNameInfo ∧
    notReadyNameInfo.ready = false := by
  refine ⟨by decide, ⟨{ hostname := "host.example.com", ip := "" }, by decide, by decide⟩,
    rfl, rfl⟩

/-- C1 (amended): for every sync pass using the load-balancer strategy where
the service exists, its ingress list is non-empty AND its first entry carries a
hostname or a (possibly unparseable) IP string: if at least one entry carries a
hostname, the resolver returns ready with the first such entry's hostname;
otherwise if at least one entry carries a parseable IP, it returns ready with
exactly the first such entry's parsed IP; and if no entry carries a usable
hostname or IP, it returns a fatal resolution error rather than not-ready. -/
theorem c1_load_balancer_resolution (p : Params) (services : List Svc) (lb : Svc)
    (hfind : findSvc services p.loadBalancerSvcName = some lb)
    (first : IngressEntry) (rest : List IngressEntry)
    (hing : lb.ingress = first :: rest)
    (husable : first.hostname ≠ "" ∨ first.ip ≠ "") :
    (∀ e, lb.ingress.find? (fun i => i.hostname != "") = some e →
      findTLSCertificateNameFromLoadBalancer p services
        = Except.ok
            { ready := true, selectedIPs := [], selectedHostname := e.hostname,
              clientEndpoint := e.hostname }) ∧
    (lb.ingress.find? (fun i => i.hostname != "") = none →
      ∀ e b, lb.ingress.findSome? (fun i => (parseIPv4 i.ip).map (fun x => (i, x)))
          = some (e, b) →
      findTLSCertificateNameFromLoadBalancer p services
        = Except.ok
            { ready := true, selectedIPs := [b], selectedHostname := "",
              clientEndpoint := e.ip }) ∧
    (lb.ingress.find? (fun i => i.hostname != "") = none →
      lb.ingress.findSome? (fun i => (parseIPv4 i.ip).map (fun x => (i, x))) = none →
      ∃ msg, findTLSCertificateNameFromLoadBalancer p services = Except.error msg) := by
  have hguard : ¬ (first.hostname = "" ∧ first.ip = "") := by
    intro hc
    rcases husable with h | h
    · exact h hc.1
    · exact h hc.2
  refine ⟨fun e hfound => ?_, fun hnone e b hip => ?_, fun hnone hipn => ?_⟩
  · have hh : firstHostnameIngress lb.ingress = some e := by
      rw [firstHostnameIngress_eq_find]; exact hfound
    simp only [findTLSCertificateNameFromLoadBalancer, hfind, hing]
    rw [← hing, hh]
    simp [hguard]
  · have hh : firstHostnameIngress lb.ingress = none := by
      rw [firstHostnameIngress_eq_find]; exact hnone
    have hi : firstParseableIPIngress lb.ingress = some (e, b) := by
      rw [firstParseableIPIngress_eq_findSome]; exact hip
    simp only [findTLSCertificateNameFromLoadBalancer, hfind, hing]
    rw [← hing, hh, hi]
    simp [hguard]
  · have hh : firstHostnameIngress lb.ingress = none := by
      rw [firstHostnameIngress_eq_find]; exact hnone
    have hi : firstParseableIPIngress lb.ingress = none := by
      rw [firstParseableIPIngress_eq_findSome]; exact hipn
    refine ⟨"could not find valid IP addresses or hostnames from load balancer", ?_⟩
    simp only [findTLSCertificateNameFromLoadBalancer, hfind, hing]
    rw [← hing, hh, hi]
    simp [hguard]

theorem c1_load_balancer_resolution_witness :
    findTLSCertificateNameFromLoadBalancer exParams [ipOnlyLB]
      = Except.ok
          { ready := true, selectedIPs := [[5, 6, 7, 8]], selectedHostname := "",
            clientEndpoint := "5.6.7.8" } :=
  (c1_load_balancer_resolution exParams [ipOnlyLB] ipOnlyLB (by decide)
      { hostname := "", ip := "garbage" } [{ hostname := "", ip := "5.6.7.8" }]
      (by decide) (by decide)).2.1 (by decide)
    { hostname := "", ip := "5.6.7.8" } [5, 6, 7, 8] (by decide)

/-! ## Claim C3: the ordered TLS-secret validation chain -/

theorem findSec_removeSec_self (l : List Sec) (n : String) :
    findSec (removeSec l n) n = none := by
  induction l with
  | nil => rfl
  | cons s l ih =>
    unfold removeSec at ih ⊢
    rw [List.filter_cons]
    by_cases h : s.name = n
    · simp [h, ih]
    · have hb : (s.name != n) = true := by simpa using h
      rw [hb]
      simp only [if_true]
      unfold findSec
      rw [List.find?_cons]
      have hb2 : (s.name == n) = false := by simpa using h
      simp [hb2, ih, findSec]

theorem zip_all_beq (a : List Bytes) : ∀ d : List Bytes, a.length = d.length →
    ((a.zip d).all (fun pr => pr.1 == pr.2)) = decide (a = d) := by
  induction a with
  | nil =>
    intro d h
    cases d with
    | nil => rfl
    | cons y ys => simp at h
  | cons x xs ih =>
    intro d h
    cases d with
    | nil => simp at h
    | cons y ys =>
      have h2 : xs.length = ys.length := by simpa using h
      by_cases hxy : x = y
      · simp [List.zip_cons_cons, hxy, ih ys h2]
      · simp [List.zip_cons_cons, hxy]

theorem and3_decide_false {P Q R : Prop} [Decidable P] [Decidable Q] [Decidable R]
    (h : ¬ (P ∧ Q ∧ R)) : (decide P && decide Q && decide R) = false := by
  by_cases hp : P
  · by_cases hq : Q
    · by_cases hr : R
      · exact absurd ⟨hp, hq, hr⟩ h
      · simp [hr]
    · simp [hq]
  · simp [hp]

theorem certMatch_eq_spec (dIPs aIPs : List Bytes) (dHost : String) (aHosts : List String) :
    certHostnameAndIPMatchDesiredState dIPs aIPs dHost aHosts
      = specExactNameMatch dIPs aIPs dHost aHosts := by
  unfold certHostnameAndIPMatchDesiredState specExactNameMatch
  by_cases hg : 0 < dIPs.length ∧ 0 < aIPs.length ∧ aIPs.length = dIPs.length ∧
      aHosts.length = 0
  · rw [if_pos hg]
    obtain ⟨h1, _, h3, h4⟩ := hg
    have haH : aHosts = [] := List.length_eq_zero.mp h4
    have hdne : dIPs ≠ [] := by
      intro hc; subst hc; simp at h1
    subst haH
    rw [zip_all_beq aIPs dIPs h3]
    simp [hdne]
  · rw [if_neg hg]
    by_cases hh : dHost ≠ "" ∧ aHosts = [dHost] ∧ aIPs = []
    · rw [if_pos hh]
      obtain ⟨h1, h2, h3⟩ := hh
      subst h2; subst h3
      simp [h1]
    · rw [if_neg hh]
      have hD1 : ¬ (dIPs ≠ [] ∧ aIPs = dIPs ∧ aHosts = []) := by
        rintro ⟨hd, ha, hh2⟩
        refine hg ⟨List.length_pos.mpr hd, ?_, by rw [ha], by rw [hh2]; rfl⟩
        rw [ha]; exact List.length_pos.mpr hd
      symm
      rw [Bool.or_eq_false_iff]
      exact ⟨and3_decide_false hD1, and3_decide_false hh⟩

/-- C3: whenever an existing TLS secret is checked during a sync pass, the
decision equals the claim's six ordered conditions — (a) PEM decode, (b)
certificate parse, (c) key-pair validity, (d) CA trust, (e) resolver ready,
(f) exact name match — with the first failing condition deciding; the secret
is deleted exactly when some condition fails (and is then gone from the
store), and kept untouched when all six pass. -/
theorem c3_six_ordered_checks (crypto : Crypto) (p : Params) (nameInfo : CertNameInfo)
    (ca : CA) (secret : Sec) (st : CtrlState) (w : World) :
    tlsSecretCheckResult crypto nameInfo ca secret
      = specSixCheckCascade crypto nameInfo ca secret ∧
    (tlsSecretCheckResult crypto nameInfo ca secret = none →
      deleteTLSSecretWhenCertificateDoesNotMatchDesiredState crypto p nameInfo ca secret st w
        = (st, w, [], false)) ∧
    (tlsSecretCheckResult crypto nameInfo ca secret ≠ none →
      (deleteTLSSecretWhenCertificateDoesNotMatchDesiredState crypto p nameInfo ca secret
          st w).2.2.2 = true ∧
      findSec (deleteTLSSecretWhenCertificateDoesNotMatchDesiredState crypto p nameInfo ca
          secret st w).2.1.secrets p.tlsSecretName = none) := by
  refine ⟨?_, fun h => ?_, fun h => ?_⟩
  · unfold tlsSecretCheckResult specSixCheckCascade
    cases hpd : crypto.pemDecode ((lookupA secret.data tlsCertKey).getD []) with
    | none => simp [hpd]
    | some der =>
      cases hpc : crypto.parseCert der with
      | none => simp [hpd, hpc]
      | some cert =>
        cases hkp : crypto.keyPairOk ((lookupA secret.data tlsCertKey).getD [])
            ((lookupA secret.data tlsPrivateKeyKey).getD []) with
        | false => simp [hpd, hpc, hkp]
        | true =>
          cases hv : crypto.verifyOk cert ca with
          | false => simp [hpd, hpc, hkp, hv]
          | true =>
            cases hr : nameInfo.ready with
            | false => simp [hpd, hpc, hkp, hv, hr]
            | true =>
              cases hm : specExactNameMatch nameInfo.selectedIPs cert.ipAddresses
                  nameInfo.selectedHostname cert.dnsNames with
              | false => simp [hpd, hpc, hkp, hv, hr, hm, certMatch_eq_spec]
              | true => simp [hpd, hpc, hkp, hv, hr, hm, certMatch_eq_spec]
  · unfold deleteTLSSecretWhenCertificateDoesNotMatchDesiredState
    simp [h]
  · obtain ⟨f, hf⟩ := Option.ne_none_iff_exists'.mp h
    unfold deleteTLSSecretWhenCertificateDoesNotMatchDesiredState
    rw [hf]
    unfold ensureTLSSecretIsRemoved
    cases hfs : findSec w.secrets p.tlsSecretName with
    | none => exact ⟨rfl, hfs⟩
    | some s0 => exact ⟨rfl, findSec_removeSec_self w.secrets p.tlsSecretName⟩

theorem c3_six_ordered_checks_witness :
    specSixCheckCascade toyCrypto nameInfo1005 toyCA badTLSSec
      = tlsSecretCheckResult toyCrypto nameInfo1005 toyCA badTLSSec ∧
    (deleteTLSSecretWhenCertificateDoesNotMatchDesiredState toyCrypto exParams nameInfo1005
        toyCA badTLSSec freshState { services := [], secrets := [badTLSSec] }).2.2.2 = true := by
  have h := c3_six_ordered_checks toyCrypto exParams nameInfo1005 toyCA badTLSSec freshState
    { services := [], secrets := [badTLSSec] }
  exact ⟨h.1.symm, (h.2.2 (by decide)).1⟩

/-! ## Lemmas: the annotation merge of `buildUpdatedService` -/

theorem lookupA_delFold (desired : List (String × String)) (ks : List String) :
    ∀ (m : List (String × String)) (k : String),
    lookupA (ks.foldl
        (fun m2 k2 => if (lookupA desired k2).isSome then m2 else eraseA m2 k2) m) k
      = if k ∈ ks ∧ lookupA desired k = none then none else lookupA m k := by
  induction ks with
  | nil => intro m k; simp
  | cons k0 ks ih =>
    intro m k
    rw [List.foldl_cons, ih]
    by_cases hk0 : (lookupA desired k0).isSome
    · rw [if_pos hk0]
      by_cases hm : k ∈ k0 :: ks ∧ lookupA desired k = none
      · obtain ⟨hmem, hnone⟩ := hm
        rcases List.mem_cons.mp hmem with h | h
        · subst h
          rw [hnone] at hk0
          simp at hk0
        · simp [h, hnone]
      · have h2 : ¬ (k ∈ ks ∧ lookupA desired k = none) :=
          fun hc => hm ⟨List.mem_cons_of_mem _ hc.1, hc.2⟩
        rw [if_neg h2, if_neg hm]
    · rw [if_neg hk0, lookupA_eraseA]
      by_cases h1 : k ∈ ks ∧ lookupA desired k = none
      · have h2 : k ∈ k0 :: ks ∧ lookupA desired k = none :=
          ⟨List.mem_cons_of_mem _ h1.1, h1.2⟩
        rw [if_pos h1, if_pos h2]
      · rw [if_neg h1]
        by_cases h2 : k = k0
        · subst h2
          have hdk : lookupA desired k = none := Option.not_isSome_iff_eq_none.mp hk0
          rw [if_pos rfl, if_pos ⟨List.mem_cons_self _ _, hdk⟩]
        · rw [if_neg h2]
          have h3 : ¬ (k ∈ k0 :: ks ∧ lookupA desired k = none) := by
            intro hc
            rcases List.mem_cons.mp hc.1 with h | h
            · exact h2 h
            · exact h1 ⟨h, hc.2⟩
          rw [if_neg h3]

theorem wb_fields (d : Svc) :
    (withBookkeeping d).1.name = d.name ∧ (withBookkeeping d).1.labels = d.labels ∧
    (withBookkeeping d).1.selector = d.selector ∧
    (withBookkeeping d).1.svcType = d.svcType ∧
    (withBookkeeping d).1.loadBalancerIP = d.loadBalancerIP ∧
    (withBookkeeping d).1.ports = d.ports ∧ (withBookkeeping d).1.clusterIP = d.clusterIP ∧
    (withBookkeeping d).1.clusterIPs = d.clusterIPs ∧
    (withBookkeeping d).1.ingress = d.ingress := by
  unfold withBookkeeping
  by_cases h : (keysOf d.anns).isEmpty <;> simp [h]

theorem wb_of_empty (d : Svc) (h : d.anns = []) :
    (withBookkeeping d).1 = d ∧ (withBookkeeping d).2 = [] := by
  unfold withBookkeeping
  simp [h, keysOf]

theorem wb_of_nonempty (d : Svc) (h : ¬ d.anns = []) :
    (withBookkeeping d).1.anns
      = insertA d.anns annKeysKey (jsonMarshalStrings (withBookkeeping d).2) ∧
    (withBookkeeping d).2 ≠ [] ∧
    (∀ k ∈ (withBookkeeping d).2, (lookupA d.anns k).isSome) := by
  have hk : keysOf d.anns ≠ [] := by
    unfold keysOf
    intro hc
    rw [List.dedup_eq_nil] at hc
    exact h (List.map_eq_nil_iff.mp hc)
  have hkE : (keysOf d.anns).isEmpty = false := by
    cases hE : (keysOf d.anns).isEmpty
    · rfl
    · exact absurd (List.isEmpty_iff.mp hE) hk
  unfold withBookkeeping
  simp only [hkE, Bool.false_eq_true, if_false]
  refine ⟨by trivial, ?_, ?_⟩
  · intro hc
    have hperm := List.perm_insertionSort (fun a b => strLeb a b = true) (keysOf d.anns)
    rw [hc] at hperm
    exact hk hperm.symm.eq_nil
  · intro k hkmem
    have hperm := List.perm_insertionSort (fun a b => strLeb a b = true) (keysOf d.anns)
    exact lookupA_isSome_of_mem_keys d.anns k (hperm.mem_iff.mp hkmem)

theorem wb_keys_empty_iff (d : Svc) : (withBookkeeping d).2 = [] ↔ d.anns = [] := by
  constructor
  · intro h
    by_contra hne
    exact (wb_of_nonempty d hne).2.1 h
  · intro h
    exact (wb_of_empty d h).2

/-- The key of D after `withBookkeeping`: unchanged except at the bookkeeping
key itself. -/
theorem lookupA_wb_anns_ne (d : Svc) (k : String) (hk : k ≠ annKeysKey) :
    lookupA (withBookkeeping d).1.anns k = lookupA d.anns k := by
  by_cases h : d.anns = []
  · rw [(wb_of_empty d h).1]
  · rw [(wb_of_nonempty d h).1, lookupA_insertA, if_neg hk]

/-- Lookup characterization of the annotation merge: the bookkeeping key is
dropped when no annotation is desired; a key recorded in the parsed previous
bookkeeping list and absent from the desired map is deleted; otherwise the
desired map overlays the existing one. -/
theorem lookupA_buildUpdated (d' : Svc) (keys : List String) (e : Svc) (k : String) :
    lookupA (buildUpdatedService d' keys e).anns k =
      if keys.isEmpty = true ∧ k = annKeysKey then none
      else if k ∈ oldBookkeepingKeys e ∧ lookupA d'.anns k = none then none
      else orElseA (lookupA d'.anns k) (lookupA e.anns k) := by
  have hanns : (buildUpdatedService d' keys e).anns
      = (if keys.isEmpty then
          eraseA ((oldBookkeepingKeys e).foldl
            (fun m2 k2 => if (lookupA d'.anns k2).isSome then m2 else eraseA m2 k2)
            (overlayA e.anns d'.anns)) annKeysKey
        else
          (oldBookkeepingKeys e).foldl
            (fun m2 k2 => if (lookupA d'.anns k2).isSome then m2 else eraseA m2 k2)
            (overlayA e.anns d'.anns)) := rfl
  rw [hanns]
  by_cases hkeys : keys.isEmpty
  · rw [if_pos hkeys, lookupA_eraseA]
    by_cases hbk : k = annKeysKey
    · rw [if_pos hbk, if_pos ⟨hkeys, hbk⟩]
    · rw [if_neg hbk, if_neg (fun hc => hbk hc.2), lookupA_delFold, lookupA_overlayA]
  · rw [if_neg hkeys, if_neg (fun hc => hkeys hc.1), lookupA_delFold, lookupA_overlayA]

/-! ## Claim C5: annotation merge-reconciliation -/

/-- C5: updates merge annotations rather than replace them — every desired key
is overlaid; a key recorded in the previous bookkeeping list but absent from
the desired set is deleted; untouched keys (third-party) keep their existing
values; the bookkeeping entry is dropped when the desired set is empty; and on
the concrete example, existing {a:1, b:2} with bookkeeping ["a","b"] and
desired {b:2, c:3} reconciles to {b:2, c:3} with new bookkeeping ["b","c"]. -/
theorem c5_annotation_merge :
    (∀ (desired0 existing : Svc) (oldKeys : List String) (k : String),
      oldBookkeepingKeys existing = oldKeys →
      k ≠ annKeysKey →
      lookupA (buildUpdatedService (withBookkeeping desired0).1 (withBookkeeping desired0).2
          existing).anns k
        = (if (lookupA desired0.anns k).isSome then lookupA desired0.anns k
           else if k ∈ oldKeys then none
           else lookupA existing.anns k)) ∧
    (∀ (desired0 existing : Svc), desired0.anns = [] →
      lookupA (buildUpdatedService (withBookkeeping desired0).1 (withBookkeeping desired0).2
          existing).anns annKeysKey = none) ∧
    ((withBookkeeping exDesired).2 = ["b", "c"] ∧
      mapEqb (buildUpdatedService (withBookkeeping exDesired).1 (withBookkeeping exDesired).2
          exExisting).anns
        [("b", "2"), ("c", "3"), (annKeysKey, "[\"b\",\"c\"]")] = true) := by
  refine ⟨?_, ?_, by decide, by decide⟩
  · intro d0 e oldKeys k holdkeys hk
    rw [lookupA_buildUpdated, holdkeys, if_neg (fun hc => hk hc.2),
      lookupA_wb_anns_ne d0 k hk]
    cases hv : lookupA d0.anns k with
    | some v => simp [hv, orElseA]
    | none =>
      by_cases hmem : k ∈ oldKeys
      · simp [hv, hmem]
      · simp [hv, hmem, orElseA]
  · intro d0 e h
    rw [lookupA_buildUpdated]
    rw [if_pos ⟨by rw [(wb_of_empty d0 h).2]; rfl, rfl⟩]

theorem c5_annotation_merge_witness :
    lookupA (buildUpdatedService (withBookkeeping exDesired).1 (withBookkeeping exDesired).2
        exExisting).anns "a"
      = (if (lookupA exDesired.anns "a").isSome then lookupA exDesired.anns "a"
         else if "a" ∈ ["a", "b"] then none
         else lookupA exExisting.anns "a") :=
  c5_annotation_merge.1 exDesired exExisting ["a", "b"] "a" (by decide) (by decide)

/-! ## Claim C7: TLS secret round trip -/

theorem certMatch_self_ips (l : List Bytes) (h : l ≠ []) :
    certHostnameAndIPMatchDesiredState l l "" [] = true := by
  unfold certHostnameAndIPMatchDesiredState
  rw [if_pos ⟨List.length_pos.mpr h, List.length_pos.mpr h, rfl, rfl⟩]
  rw [zip_all_beq l l rfl]
  simp

theorem certMatch_self_host (h : String) (hne : h ≠ "") :
    certHostnameAndIPMatchDesiredState [] [] h [h] = true := by
  unfold certHostnameAndIPMatchDesiredState
  rw [if_neg (by simp), if_pos ⟨hne, rfl, rfl⟩]

/-- A secret freshly built by `createNewTLSSecret` for ready, well-formed name
info passes the whole validation chain against the same CA and name info. -/
theorem createdSecretChecksClean (crypto : Crypto) (hrt : CryptoRoundTrip crypto)
    (p : Params) (ca : CA) (nameInfo : CertNameInfo) (w w1 : World) (acts : List Action)
    (sec : Sec) (hready : nameInfo.ready = true)
    (hwf : (nameInfo.selectedIPs ≠ [] ∧ nameInfo.selectedHostname = "") ∨
           (nameInfo.selectedIPs = [] ∧ nameInfo.selectedHostname ≠ ""))
    (hcreate : createNewTLSSecret crypto p ca nameInfo.selectedIPs nameInfo.selectedHostname w
      = (w1, acts, Except.ok sec)) :
    tlsSecretCheckResult crypto nameInfo ca sec = none := by
  cases hiss : crypto.issueServerCert ca
      (if nameInfo.selectedHostname ≠ "" then [nameInfo.selectedHostname] else [])
      nameInfo.selectedIPs with
  | none =>
    simp only [createNewTLSSecret, hiss, Prod.mk.injEq] at hcreate
    exact absurd hcreate.2.2 (by simp)
  | some cert =>
    cases hpem : crypto.certToPEM cert with
    | none =>
      simp only [createNewTLSSecret, hiss, hpem, Prod.mk.injEq] at hcreate
      exact absurd hcreate.2.2 (by simp)
    | some pems =>
      simp only [createNewTLSSecret, hiss, hpem, Prod.mk.injEq, Except.ok.injEq] at hcreate
      have hsec : sec =
          { name := p.tlsSecretName, labels := p.labels,
            data := [(tlsPrivateKeyKey, pems.2), (tlsCertKey, pems.1)],
            secType := "kubernetes.io/tls" } := hcreate.2.2.symm
      obtain ⟨hips, hdns, ⟨der, hde, hpc⟩, hkp, hv, _⟩ :=
        hrt ca _ _ cert pems.1 pems.2 hiss (by rw [hpem])
      subst hsec
      unfold tlsSecretCheckResult
      have hl1 : lookupA [(tlsPrivateKeyKey, pems.2), (tlsCertKey, pems.1)] tlsCertKey
          = some pems.1 := by
        rw [lookupA_cons, if_neg (by decide), lookupA_cons, if_pos rfl]
      have hl2 : lookupA [(tlsPrivateKeyKey, pems.2), (tlsCertKey, pems.1)] tlsPrivateKeyKey
          = some pems.2 := by
        rw [lookupA_cons, if_pos rfl]
      simp only [hl1, hl2, Option.getD_some, hde, hpc, hkp, hv, hready]
      rcases hwf with ⟨hne, hh⟩ | ⟨he, hh⟩
      · have hdns2 : cert.dnsNames = [] := by
          rw [hdns, hh]
          simp
        rw [hips, hdns2, hh]
        simp [certMatch_self_ips nameInfo.selectedIPs hne]
      · have hdns2 : cert.dnsNames = [nameInfo.selectedHostname] := by
          rw [hdns, if_pos hh]
        rw [hips, hdns2, he]
        simp [certMatch_self_host nameInfo.selectedHostname hh]

theorem toyCryptoRT : CryptoRoundTrip toyCrypto := by
  intro ca hs ips cert certPEM keyPEM h1 h2
  by_cases hc : hs = ([] : List String) ∧ ips = [[10, 0, 0, 5]]
  · have hiss : toyCrypto.issueServerCert ca hs ips
        = some { ipAddresses := ips, dnsNames := hs } := by
      show (if hs = ([] : List String) ∧ ips = [[10, 0, 0, 5]] then
            some ({ ipAddresses := ips, dnsNames := hs } : Cert)
          else none)
        = some ({ ipAddresses := ips, dnsNames := hs } : Cert)
      rw [if_pos hc]
    rw [hiss] at h1
    injection h1 with h1
    obtain ⟨hh, hi⟩ := hc
    subst hh; subst hi
    subst h1
    have hpem : toyCrypto.certToPEM
        { ipAddresses := [[10, 0, 0, 5]], dnsNames := ([] : List String) }
        = some (([7], [8]) : Bytes × Bytes) := rfl
    rw [hpem] at h2
    injection h2 with h2
    have hcp : certPEM = [7] := (congrArg Prod.fst h2).symm
    have hkp : keyPEM = [8] := (congrArg Prod.snd h2).symm
    subst hcp; subst hkp
    exact ⟨rfl, rfl, ⟨[9], rfl, rfl⟩, rfl, rfl, rfl⟩
  · have hiss : toyCrypto.issueServerCert ca hs ips = none := by
      show (if hs = ([] : List String) ∧ ips = [[10, 0, 0, 5]] then
            some ({ ipAddresses := ips, dnsNames := hs } : Cert)
          else none)
        = none
      rw [if_neg hc]
    rw [hiss] at h1
    exact absurd h1 (by simp)

/-- C7: for every CA and the resolved name info {ready: true,
selectedIPs: [10.0.0.5]}, a TLS secret created by the controller from that CA
and name info passes all validation checks on a subsequent sync pass against
the same CA and name info, so the check-and-delete step keeps it (no delete,
no store change, no actions) and it is never recreated. -/
theorem c7_round_trip (crypto : Crypto) (p : Params) (ca : CA) (w w1 : World)
    (acts : List Action) (sec : Sec) (hrt : CryptoRoundTrip crypto)
    (hcreate : createNewTLSSecret crypto p ca [[10, 0, 0, 5]] "" w
      = (w1, acts, Except.ok sec))
    (st : CtrlState) (w2 : World) :
    tlsSecretCheckResult crypto nameInfo1005 ca sec = none ∧
    deleteTLSSecretWhenCertificateDoesNotMatchDesiredState crypto p nameInfo1005 ca sec st w2
      = (st, w2, [], false) := by
  have hchk := createdSecretChecksClean crypto hrt p ca nameInfo1005 w w1 acts sec rfl
    (Or.inl ⟨by decide, rfl⟩) hcreate
  refine ⟨hchk, ?_⟩
  unfold deleteTLSSecretWhenCertificateDoesNotMatchDesiredState
  rw [hchk]

theorem c7_round_trip_witness :
    tlsSecretCheckResult toyCrypto nameInfo1005 toyCA toySec = none ∧
    deleteTLSSecretWhenCertificateDoesNotMatchDesiredState toyCrypto exParams nameInfo1005
        toyCA toySec freshState emptyWorld = (freshState, emptyWorld, [], false) :=
  c7_round_trip toyCrypto exParams toyCA emptyWorld
    { services := [], secrets := [toySec] } [Action.createSec toySec] toySec toyCryptoRT
    rfl freshState emptyWorld

/-! ## Lemmas: the service and secret stores -/

theorem findSvc_cons (svc : Svc) (l : List Svc) (n : String) :
    findSvc (svc :: l) n = if svc.name = n then some svc else findSvc l n := by
  unfold findSvc
  rw [List.find?_cons]
  by_cases h : svc.name = n
  · simp [h]
  · have hb : (svc.name == n) = false := by simpa using h
    simp [hb, h]

theorem findSec_cons (sec : Sec) (l : List Sec) (n : String) :
    findSec (sec :: l) n = if sec.name = n then some sec else findSec l n := by
  unfold findSec
  rw [List.find?_cons]
  by_cases h : sec.name = n
  · simp [h]
  · have hb : (sec.name == n) = false := by simpa using h
    simp [hb, h]

theorem findSvc_name (l : List Svc) (n : String) (s : Svc) (h : findSvc l n = some s) :
    s.name = n := by
  induction l with
  | nil => simp [findSvc] at h
  | cons e l ih =>
    rw [findSvc_cons] at h
    by_cases he : e.name = n
    · rw [if_pos he] at h
      injection h with h
      rw [← h]
      exact he
    · rw [if_neg he] at h
      exact ih h

theorem findSvc_removeSvc_self (l : List Svc) (n : String) :
    findSvc (removeSvc l n) n = none := by
  induction l with
  | nil => rfl
  | cons s l ih =>
    unfold removeSvc at ih ⊢
    rw [List.filter_cons]
    by_cases h : s.name = n
    · simp [h, ih]
    · have hb : (s.name != n) = true := by simpa using h
      rw [hb]
      simp only [if_true]
      rw [findSvc_cons, if_neg h]
      exact ih

theorem findSvc_removeSvc_other (l : List Svc) (n m : String) (h : m ≠ n) :
    findSvc (removeSvc l n) m = findSvc l m := by
  induction l with
  | nil => rfl
  | cons s l ih =>
    unfold removeSvc at ih ⊢
    rw [List.filter_cons]
    by_cases hs : s.name = n
    · have hb : (s.name != n) = false := by simpa using hs
      rw [hb]
      simp only [Bool.false_eq_true, if_false]
      rw [ih, findSvc_cons, if_neg (by rw [hs]; exact fun hc => h hc.symm)]
    · have hb : (s.name != n) = true := by simpa using hs
      rw [hb]
      simp only [if_true]
      rw [findSvc_cons, findSvc_cons, ih]

theorem findSec_removeSec_other (l : List Sec) (n m : String) (h : m ≠ n) :
    findSec (removeSec l n) m = findSec l m := by
  induction l with
  | nil => rfl
  | cons s l ih =>
    unfold removeSec at ih ⊢
    rw [List.filter_cons]
    by_cases hs : s.name = n
    · have hb : (s.name != n) = false := by simpa using hs
      rw [hb]
      simp only [Bool.false_eq_true, if_false]
      rw [ih, findSec_cons, if_neg (by rw [hs]; exact fun hc => h hc.symm)]
    · have hb : (s.name != n) = true := by simpa using hs
      rw [hb]
      simp only [if_true]
      rw [findSec_cons, findSec_cons, ih]

theorem findSvc_replaceSvc_self (l : List Svc) (n : String) (s' : Svc)
    (hname : s'.name = n) :
    ∀ s0, findSvc l n = some s0 → findSvc (replaceSvc l n s') n = some s' := by
  induction l with
  | nil => intro s0 h; simp [findSvc] at h
  | cons e l ih =>
    intro s0 h
    unfold replaceSvc
    rw [List.map_cons]
    by_cases he : e.name = n
    · rw [if_pos he, findSvc_cons, if_pos hname]
    · rw [if_neg he, findSvc_cons, if_neg he]
      rw [findSvc_cons, if_neg he] at h
      exact ih s0 h

theorem findSvc_replaceSvc_other (l : List Svc) (n m : String) (s' : Svc)
    (hname : s'.name = n) (h : m ≠ n) :
    findSvc (replaceSvc l n s') m = findSvc l m := by
  induction l with
  | nil => rfl
  | cons e l ih =>
    unfold replaceSvc at ih ⊢
    rw [List.map_cons]
    by_cases he : e.name = n
    · rw [if_pos he, findSvc_cons, findSvc_cons, ih,
        if_neg (by rw [hname]; exact fun hc => h hc.symm),
        if_neg (by rw [he]; exact fun hc => h hc.symm)]
    · rw [if_neg he, findSvc_cons, findSvc_cons, ih]

/-! ## Lemmas: stability of the service update construction -/

theorem bu_fields (d' : Svc) (keys : List String) (e : Svc) :
    (buildUpdatedService d' keys e).name = e.name ∧
    (buildUpdatedService d' keys e).labels = d'.labels ∧
    (buildUpdatedService d' keys e).selector = d'.selector ∧
    (buildUpdatedService d' keys e).svcType = d'.svcType ∧
    (buildUpdatedService d' keys e).loadBalancerIP = d'.loadBalancerIP ∧
    (buildUpdatedService d' keys e).ports = e.ports ∧
    (buildUpdatedService d' keys e).clusterIP = e.clusterIP ∧
    (buildUpdatedService d' keys e).clusterIPs = e.clusterIPs ∧
    (buildUpdatedService d' keys e).ingress = e.ingress :=
  ⟨rfl, rfl, rfl, rfl, rfl, rfl, rfl, rfl, rfl⟩

theorem lookupA_wb_anns_bk (d : Svc) (h : d.anns ≠ []) :
    lookupA (withBookkeeping d).1.anns annKeysKey
      = some (jsonMarshalStrings (withBookkeeping d).2) := by
  rw [(wb_of_nonempty d h).1, lookupA_insertA, if_pos rfl]

/-- Re-running the update construction on a stable stored service is
observationally a no-op. -/
theorem serviceEqb_of_stable (d' : Svc) (keys : List String) (e : Svc)
    (hst : StableFor d' keys e) :
    serviceEqb e (buildUpdatedService d' keys e) = true := by
  obtain ⟨hl, hsel, hty, hlb, hann, hbk, hold⟩ := hst
  have hext : ∀ k, lookupA e.anns k = lookupA (buildUpdatedService d' keys e).anns k := by
    intro k
    rw [lookupA_buildUpdated]
    by_cases h1 : keys.isEmpty = true ∧ k = annKeysKey
    · rw [if_pos h1, h1.2, hbk (List.isEmpty_iff.mp h1.1)]
    · rw [if_neg h1]
      by_cases h2 : k ∈ oldBookkeepingKeys e ∧ lookupA d'.anns k = none
      · have := hold k h2.1
        rw [h2.2] at this
        simp at this
      · rw [if_neg h2]
        cases hv : lookupA d'.anns k with
        | some v =>
          rw [hann k (by rw [hv]; rfl), hv]
          rfl
        | none => rfl
  have hanns : mapEqb e.anns (buildUpdatedService d' keys e).anns = true :=
    mapEqb_of_ext _ _ hext
  unfold serviceEqb
  rw [(bu_fields d' keys e).1, (bu_fields d' keys e).2.1, (bu_fields d' keys e).2.2.1,
    (bu_fields d' keys e).2.2.2.1, (bu_fields d' keys e).2.2.2.2.1,
    (bu_fields d' keys e).2.2.2.2.2.1, (bu_fields d' keys e).2.2.2.2.2.2.1,
    (bu_fields d' keys e).2.2.2.2.2.2.2.1, (bu_fields d' keys e).2.2.2.2.2.2.2.2,
    ← hl, ← hsel, ← hty, ← hlb]
  simp [hanns, mapEqb_refl]

/-- A freshly created service (the bookkeeping-augmented desired service) is
stable for itself. -/
theorem stable_self (d : Svc) :
    StableFor (withBookkeeping d).1 (withBookkeeping d).2 (withBookkeeping d).1 := by
  refine ⟨rfl, rfl, rfl, rfl, fun k _ => rfl, ?_, ?_⟩
  · intro hkeys
    have hanns : d.anns = [] := (wb_keys_empty_iff d).mp hkeys
    rw [(wb_of_empty d hanns).1, hanns]
    rfl
  · intro k hk
    by_cases hanns : d.anns = []
    · rw [(wb_of_empty d hanns).1] at hk
      unfold oldBookkeepingKeys at hk
      rw [hanns] at hk
      simp [lookupA] at hk
    · have hbk := lookupA_wb_anns_bk d hanns
      unfold oldBookkeepingKeys at hk
      rw [hbk] at hk
      simp only [jsonRoundTrip, Option.getD_some] at hk
      have hsome := (wb_of_nonempty d hanns).2.2 k hk
      rw [(wb_of_nonempty d hanns).1, lookupA_insertA]
      by_cases hkbk : k = annKeysKey
      · rw [if_pos hkbk]; rfl
      · rw [if_neg hkbk]; exact hsome

/-- The output of the update construction is itself stable. -/
theorem stable_updated (d : Svc) (e0 : Svc) :
    StableFor (withBookkeeping d).1 (withBookkeeping d).2
      (buildUpdatedService (withBookkeeping d).1 (withBookkeeping d).2 e0) := by
  refine ⟨(bu_fields _ _ _).2.1, (bu_fields _ _ _).2.2.1, (bu_fields _ _ _).2.2.2.1,
    (bu_fields _ _ _).2.2.2.2.1, ?_, ?_, ?_⟩
  · intro k hsome
    rw [lookupA_buildUpdated]
    have h1 : ¬ ((withBookkeeping d).2.isEmpty = true ∧ k = annKeysKey) := by
      intro hc
      have hanns : d.anns = [] := (wb_keys_empty_iff d).mp (List.isEmpty_iff.mp hc.1)
      rw [(wb_of_empty d hanns).1, hanns] at hsome
      simp [lookupA] at hsome
    rw [if_neg h1]
    have h2 : ¬ (k ∈ oldBookkeepingKeys e0 ∧
        lookupA (withBookkeeping d).1.anns k = none) := by
      intro hc
      rw [hc.2] at hsome
      simp at hsome
    rw [if_neg h2]
    cases hv : lookupA (withBookkeeping d).1.anns k with
    | some v => rfl
    | none => rw [hv] at hsome; simp at hsome
  · intro hkeys
    rw [lookupA_buildUpdated]
    rw [if_pos ⟨by rw [hkeys]; rfl, rfl⟩]
  · intro k hk
    by_cases hanns : d.anns = []
    · have hkeys : (withBookkeeping d).2 = [] := (wb_keys_empty_iff d).mpr hanns
      unfold oldBookkeepingKeys at hk
      rw [lookupA_buildUpdated, if_pos ⟨by rw [hkeys]; rfl, rfl⟩] at hk
      simp at hk
    · have hkeys : (withBookkeeping d).2 ≠ [] := fun hc => hanns ((wb_keys_empty_iff d).mp hc)
      have hkeysE : ¬ ((withBookkeeping d).2.isEmpty = true) := by
        intro hc; exact hkeys (List.isEmpty_iff.mp hc)
      have hbkval : lookupA (buildUpdatedService (withBookkeeping d).1 (withBookkeeping d).2
          e0).anns annKeysKey = some (jsonMarshalStrings (withBookkeeping d).2) := by
        rw [lookupA_buildUpdated, if_neg (fun hc => hkeysE hc.1)]
        have hs := lookupA_wb_anns_bk d hanns
        rw [if_neg (fun hc => by rw [hs] at hc; exact Option.noConfusion hc.2), hs]
        rfl
      unfold oldBookkeepingKeys at hk
      rw [hbkval] at hk
      simp only [jsonRoundTrip, Option.getD_some] at hk
      have hsome := (wb_of_nonempty d hanns).2.2 k hk
      rw [(wb_of_nonempty d hanns).1, lookupA_insertA]
      by_cases hkbk : k = annKeysKey
      · rw [if_pos hkbk]; rfl
      · rw [if_neg hkbk]; exact hsome

/-! ## Lemmas: createOrUpdateService and the service phase -/

theorem cous_secrets (w : World) (d0 : Svc) :
    (createOrUpdateService w d0).1.secrets = w.secrets := by
  simp only [createOrUpdateService]
  split
  · rfl
  · split
    · rfl
    · rfl

theorem cous_noop (w : World) (d0 : Svc) (e : Svc)
    (hfind : findSvc w.services d0.name = some e)
    (hst : StableFor (withBookkeeping d0).1 (withBookkeeping d0).2 e) :
    createOrUpdateService w d0 = (w, []) := by
  have hname : (withBookkeeping d0).1.name = d0.name := (wb_fields d0).1
  simp only [createOrUpdateService, hname, hfind]
  rw [if_pos (serviceEqb_of_stable _ _ _ hst)]

theorem cous_frame (w : World) (d0 : Svc) (n : String) (h : n ≠ d0.name) :
    findSvc (createOrUpdateService w d0).1.services n = findSvc w.services n := by
  have hname : (withBookkeeping d0).1.name = d0.name := (wb_fields d0).1
  simp only [createOrUpdateService]
  split
  · next hfind =>
    show findSvc ((withBookkeeping d0).1 :: w.services) n = _
    rw [findSvc_cons, if_neg (by rw [hname]; exact fun hc => h hc.symm)]
  · next e0 hfind =>
    split
    · rfl
    · show findSvc (replaceSvc w.services (withBookkeeping d0).1.name _) n = _
      apply findSvc_replaceSvc_other
      · rw [(bu_fields _ _ _).1]
        exact findSvc_name _ _ _ hfind
      · rw [hname]
        exact h

theorem cous_post (w : World) (d0 : Svc) :
    ∃ e, findSvc (createOrUpdateService w d0).1.services d0.name = some e ∧
      SvcNoopAt d0 e := by
  have hname : (withBookkeeping d0).1.name = d0.name := (wb_fields d0).1
  cases hf : findSvc w.services d0.name with
  | none =>
    have hr : createOrUpdateService w d0
        = ({ w with services := (withBookkeeping d0).1 :: w.services },
           [Action.createSvc (withBookkeeping d0).1]) := by
      simp only [createOrUpdateService, hname, hf]
    refine ⟨(withBookkeeping d0).1, ?_, ?_⟩
    · rw [hr]
      show findSvc ((withBookkeeping d0).1 :: w.services) d0.name = _
      rw [findSvc_cons, if_pos hname]
    · intro w' hw'
      exact cous_noop w' d0 _ hw' (stable_self d0)
  | some e0 =>
    by_cases heq : serviceEqb e0 (buildUpdatedService (withBookkeeping d0).1
        (withBookkeeping d0).2 e0) = true
    · have hr : createOrUpdateService w d0 = (w, []) := by
        simp only [createOrUpdateService, hname, hf]
        rw [if_pos heq]
      refine ⟨e0, by rw [hr]; exact hf, ?_⟩
      intro w' hw'
      simp only [createOrUpdateService, hname, hw']
      rw [if_pos heq]
    · refine ⟨buildUpdatedService (withBookkeeping d0).1 (withBookkeeping d0).2 e0, ?_, ?_⟩
      · have hr : createOrUpdateService w d0
            = ({ w with
                   services := replaceSvc w.services d0.name
                     (buildUpdatedService (withBookkeeping d0).1 (withBookkeeping d0).2 e0) },
               [Action.updateSvc
                 (buildUpdatedService (withBookkeeping d0).1 (withBookkeeping d0).2 e0)]) := by
          simp only [createOrUpdateService, hname, hf]
          rw [if_neg heq]
        rw [hr]
        exact findSvc_replaceSvc_self w.services d0.name _
          (by rw [(bu_fields _ _ _).1]; exact findSvc_name _ _ _ hf) e0 hf
      · intro w' hw'
        exact cous_noop w' d0 _ hw' (stable_updated d0 e0)

theorem stopLB_post (p : Params) (w : World) :
    findSvc (ensureLoadBalancerIsStopped p w).1.services p.loadBalancerSvcName = none ∧
    (ensureLoadBalancerIsStopped p w).1.secrets = w.secrets := by
  unfold ensureLoadBalancerIsStopped
  cases hf : findSvc w.services p.loadBalancerSvcName with
  | none => exact ⟨hf, rfl⟩
  | some s => exact ⟨findSvc_removeSvc_self w.services p.loadBalancerSvcName, rfl⟩

theorem stopLB_noop (p : Params) (w : World)
    (h : findSvc w.services p.loadBalancerSvcName = none) :
    ensureLoadBalancerIsStopped p w = (w, []) := by
  simp only [ensureLoadBalancerIsStopped, h]

theorem stopLB_frame (p : Params) (w : World) (n : String) (h : n ≠ p.loadBalancerSvcName) :
    findSvc (ensureLoadBalancerIsStopped p w).1.services n = findSvc w.services n := by
  unfold ensureLoadBalancerIsStopped
  cases hf : findSvc w.services p.loadBalancerSvcName with
  | none => rfl
  | some s => exact findSvc_removeSvc_other w.services p.loadBalancerSvcName n h

theorem stopCIP_post (p : Params) (w : World) :
    findSvc (ensureClusterIPServiceIsStopped p w).1.services p.clusterIPSvcName = none ∧
    (ensureClusterIPServiceIsStopped p w).1.secrets = w.secrets := by
  unfold ensureClusterIPServiceIsStopped
  cases hf : findSvc w.services p.clusterIPSvcName with
  | none => exact ⟨hf, rfl⟩
  | some s => exact ⟨findSvc_removeSvc_self w.services p.clusterIPSvcName, rfl⟩

theorem stopCIP_noop (p : Params) (w : World)
    (h : findSvc w.services p.clusterIPSvcName = none) :
    ensureClusterIPServiceIsStopped p w = (w, []) := by
  simp only [ensureClusterIPServiceIsStopped, h]

theorem stopCIP_frame (p : Params) (w : World) (n : String) (h : n ≠ p.clusterIPSvcName) :
    findSvc (ensureClusterIPServiceIsStopped p w).1.services n = findSvc w.services n := by
  unfold ensureClusterIPServiceIsStopped
  cases hf : findSvc w.services p.clusterIPSvcName with
  | none => rfl
  | some s => exact findSvc_removeSvc_other w.services p.clusterIPSvcName n h

lemma lbStart_secrets (p : Params) (config : ProxySpec) (w : World) :
    (ensureLoadBalancerIsStarted p config w).1.secrets = w.secrets :=
  cous_secrets w (desiredLoadBalancer p config)

lemma cipStart_secrets (p : Params) (config : ProxySpec) (w : World) :
    (ensureClusterIPServiceIsStarted p config w).1.secrets = w.secrets :=
  cous_secrets w (desiredClusterIPService p config)

lemma lbStart_frame (p : Params) (config : ProxySpec) (w : World) (n : String)
    (h : n ≠ p.loadBalancerSvcName) :
    findSvc (ensureLoadBalancerIsStarted p config w).1.services n = findSvc w.services n :=
  cous_frame w (desiredLoadBalancer p config) n h

lemma cipStart_frame (p : Params) (config : ProxySpec) (w : World) (n : String)
    (h : n ≠ p.clusterIPSvcName) :
    findSvc (ensureClusterIPServiceIsStarted p config w).1.services n = findSvc w.services n :=
  cous_frame w (desiredClusterIPService p config) n h

lemma lbStart_post (p : Params) (config : ProxySpec) (w : World) :
    ∃ e, findSvc (ensureLoadBalancerIsStarted p config w).1.services p.loadBalancerSvcName
        = some e ∧ SvcNoopAt (desiredLoadBalancer p config) e :=
  cous_post w (desiredLoadBalancer p config)

lemma cipStart_post (p : Params) (config : ProxySpec) (w : World) :
    ∃ e, findSvc (ensureClusterIPServiceIsStarted p config w).1.services p.clusterIPSvcName
        = some e ∧ SvcNoopAt (desiredClusterIPService p config) e :=
  cous_post w (desiredClusterIPService p config)

theorem syncServices_secrets (p : Params) (hasCP : Bool) (config : ProxySpec) (w : World) :
    (syncServicesStep p hasCP config w).1.secrets = w.secrets := by
  by_cases h1 : shouldHaveLoadBalancer hasCP config = true <;>
    by_cases h2 : shouldHaveClusterIPService hasCP config = true <;>
      simp only [syncServicesStep, h1, h2, eq_self_iff_true, if_true, Bool.false_eq_true, if_false] <;>
      first
        | rw [cipStart_secrets, lbStart_secrets]
        | rw [cipStart_secrets, (stopLB_post p w).2]
        | rw [(stopCIP_post p _).2, lbStart_secrets]
        | rw [(stopCIP_post p _).2, (stopLB_post p w).2]

/-- After one service phase on `w`, the service phase is a no-op (unchanged
world and no actions) on any world carrying the resulting service list,
provided the two service names differ. -/
theorem syncServices_post (p : Params) (hasCP : Bool) (config : ProxySpec) (w w' : World)
    (hne : p.loadBalancerSvcName ≠ p.clusterIPSvcName)
    (hsv : w'.services = (syncServicesStep p hasCP config w).1.services) :
    syncServicesStep p hasCP config w' = (w', []) := by
  by_cases h1 : shouldHaveLoadBalancer hasCP config = true
  · by_cases h2 : shouldHaveClusterIPService hasCP config = true
    · obtain ⟨e1, hf1, hnoop1⟩ := lbStart_post p config w
      obtain ⟨e2, hf2, hnoop2⟩ :=
        cipStart_post p config (ensureLoadBalancerIsStarted p config w).1
      have hw2 : (syncServicesStep p hasCP config w).1
          = (ensureClusterIPServiceIsStarted p config
              (ensureLoadBalancerIsStarted p config w).1).1 := by
        simp only [syncServicesStep, h1, h2, eq_self_iff_true, if_true]
      have hf1w2 : findSvc w'.services p.loadBalancerSvcName = some e1 := by
        rw [hsv, hw2, cipStart_frame p config _ p.loadBalancerSvcName hne]
        exact hf1
      have hf2w2 : findSvc w'.services p.clusterIPSvcName = some e2 := by
        rw [hsv, hw2]
        exact hf2
      have hlb2 : ensureLoadBalancerIsStarted p config w' = (w', []) := hnoop1 _ hf1w2
      have hcip2 : ensureClusterIPServiceIsStarted p config w' = (w', []) := hnoop2 _ hf2w2
      simp only [syncServicesStep, h1, h2, eq_self_iff_true, if_true]
      rw [hlb2]
      show ((ensureClusterIPServiceIsStarted p config w').1,
        [] ++ (ensureClusterIPServiceIsStarted p config w').2) = (w', [])
      rw [hcip2]
      rfl
    · obtain ⟨e1, hf1, hnoop1⟩ := lbStart_post p config w
      have hw2 : (syncServicesStep p hasCP config w).1
          = (ensureClusterIPServiceIsStopped p
              (ensureLoadBalancerIsStarted p config w).1).1 := by
        simp only [syncServicesStep, h1, h2, eq_self_iff_true, if_true,
          Bool.false_eq_true, if_false]
      have hf1w2 : findSvc w'.services p.loadBalancerSvcName = some e1 := by
        rw [hsv, hw2, stopCIP_frame p _ p.loadBalancerSvcName hne]
        exact hf1
      have hcipn : findSvc w'.services p.clusterIPSvcName = none := by
        rw [hsv, hw2]
        exact (stopCIP_post p _).1
      have hlb2 : ensureLoadBalancerIsStarted p config w' = (w', []) := hnoop1 _ hf1w2
      have hcip2 : ensureClusterIPServiceIsStopped p w' = (w', []) := stopCIP_noop p _ hcipn
      simp only [syncServicesStep, h1, h2, eq_self_iff_true, if_true,
        Bool.false_eq_true, if_false]
      rw [hlb2]
      show ((ensureClusterIPServiceIsStopped p w').1,
        [] ++ (ensureClusterIPServiceIsStopped p w').2) = (w', [])
      rw [hcip2]
      rfl
  · by_cases h2 : shouldHaveClusterIPService hasCP config = true
    · obtain ⟨e2, hf2, hnoop2⟩ := cipStart_post p config (ensureLoadBalancerIsStopped p w).1
      have hw2 : (syncServicesStep p hasCP config w).1
          = (ensureClusterIPServiceIsStarted p config
              (ensureLoadBalancerIsStopped p w).1).1 := by
        simp only [syncServicesStep, h1, h2, eq_self_iff_true, if_true,
          Bool.false_eq_true, if_false]
      have hlbn : findSvc w'.services p.loadBalancerSvcName = none := by
        rw [hsv, hw2, cipStart_frame p config _ p.loadBalancerSvcName hne]
        exact (stopLB_post p w).1
      have hf2w2 : findSvc w'.services p.clusterIPSvcName = some e2 := by
        rw [hsv, hw2]
        exact hf2
      have hlb2 : ensureLoadBalancerIsStopped p w' = (w', []) := stopLB_noop p _ hlbn
      have hcip2 : ensureClusterIPServiceIsStarted p config w' = (w', []) := hnoop2 _ hf2w2
      simp only [syncServicesStep, h1, h2, eq_self_iff_true, if_true,
        Bool.false_eq_true, if_false]
      rw [hlb2]
      show ((ensureClusterIPServiceIsStarted p config w').1,
        [] ++ (ensureClusterIPServiceIsStarted p config w').2) = (w', [])
      rw [hcip2]
      rfl
    · have hw2 : (syncServicesStep p hasCP config w).1
          = (ensureClusterIPServiceIsStopped p (ensureLoadBalancerIsStopped p w).1).1 := by
        simp only [syncServicesStep, h1, h2, Bool.false_eq_true, if_false]
      have hlbn : findSvc w'.services p.loadBalancerSvcName = none := by
        rw [hsv, hw2, stopCIP_frame p _ p.loadBalancerSvcName hne]
        exact (stopLB_post p w).1
      have hcipn : findSvc w'.services p.clusterIPSvcName = none := by
        rw [hsv, hw2]
        exact (stopCIP_post p _).1
      have hlb2 : ensureLoadBalancerIsStopped p w' = (w', []) := stopLB_noop p _ hlbn
      have hcip2 : ensureClusterIPServiceIsStopped p w' = (w', []) := stopCIP_noop p _ hcipn
      simp only [syncServicesStep, h1, h2, Bool.false_eq_true, if_false]
      rw [hlb2]
      show ((ensureClusterIPServiceIsStopped p w').1,
        [] ++ (ensureClusterIPServiceIsStopped p w').2) = (w', [])
      rw [hcip2]
      rfl

/-! ## Lemmas: the certificate name resolver is well-formed -/

theorem firstHostnameIngress_ne (l : List IngressEntry) (i : IngressEntry)
    (h : firstHostnameIngress l = some i) : i.hostname ≠ "" := by
  induction l with
  | nil => simp [firstHostnameIngress] at h
  | cons e l ih =>
    unfold firstHostnameIngress at h
    by_cases he : e.hostname ≠ ""
    · rw [if_pos he] at h
      injection h with h
      rw [← h]
      exact he
    · rw [if_neg he] at h
      exact ih h

theorem notReady_wf : NameInfoWF notReadyNameInfo := by
  intro hr
  simp [notReadyNameInfo] at hr

/-- The certificate name resolver only produces well-formed name info (a
non-empty IP list or a hostname, never both and never neither), provided the
configured external endpoint, when set, parses with a non-empty host. -/
theorem resolver_wf (p : Params) (config : ProxySpec) (services : List Svc)
    (nameInfo : CertNameInfo)
    (hep : config.externalEndpoint ≠ "" →
      ∃ addr, parseEndpoint config.externalEndpoint 443 = some addr ∧ addr.host ≠ "")
    (h : findDesiredTLSCertificateName p config services = Except.ok nameInfo) :
    NameInfoWF nameInfo := by
  unfold findDesiredTLSCertificateName at h
  by_cases hee : config.externalEndpoint ≠ ""
  · rw [if_pos hee] at h
    injection h with h
    obtain ⟨addr, haddr, hhost⟩ := hep hee
    simp only [findTLSCertificateNameFromEndpointConfig, haddr, Option.getD_some] at h
    cases hip : parseIPv4 addr.host with
    | some ip =>
      simp only [hip] at h
      subst h
      intro _
      left
      exact ⟨by simp, rfl⟩
    | none =>
      simp only [hip] at h
      subst h
      intro _
      right
      exact ⟨rfl, hhost⟩
  · rw [if_neg hee] at h
    by_cases hcip : config.svcType = svcTypeClusterIP
    · rw [if_pos hcip] at h
      simp only [findTLSCertificateNameFromClusterIPService] at h
      cases hf : findSvc services p.clusterIPSvcName with
      | none =>
        simp only [hf] at h
        injection h with h
        subst h
        exact notReady_wf
      | some svc =>
        simp only [hf] at h
        by_cases hcl : svc.clusterIP ≠ ""
        · rw [if_pos hcl] at h
          injection h with h
          subst h
          intro _
          left
          refine ⟨?_, rfl⟩
          by_cases hce : svc.clusterIPs.isEmpty = true
          · rw [if_pos hce]
            simp
          · rw [if_neg hce]
            intro hmap
            rw [List.map_eq_nil_iff] at hmap
            exact hce (by rw [hmap]; rfl)
        · rw [if_neg hcl] at h
          injection h with h
          subst h
          exact notReady_wf
    · rw [if_neg hcip] at h
      simp only [findTLSCertificateNameFromLoadBalancer] at h
      cases hf : findSvc services p.loadBalancerSvcName with
      | none =>
        simp only [hf] at h
        injection h with h
        subst h
        exact notReady_wf
      | some lb =>
        simp only [hf] at h
        cases hing : lb.ingress with
        | nil =>
          simp only [hing] at h
          injection h with h
          subst h
          exact notReady_wf
        | cons fi rest =>
          simp only [hing] at h
          by_cases hfe : fi.hostname = "" ∧ fi.ip = ""
          · rw [if_pos hfe] at h
            injection h with h
            subst h
            exact notReady_wf
          · rw [if_neg hfe] at h
            cases hfh : firstHostnameIngress (fi :: rest) with
            | some i =>
              simp only [hfh] at h
              injection h with h
              subst h
              intro _
              right
              exact ⟨rfl, firstHostnameIngress_ne _ i hfh⟩
            | none =>
              simp only [hfh] at h
              cases hfp : firstParseableIPIngress (fi :: rest) with
              | some ipr =>
                simp only [hfp] at h
                injection h with h
                subst h
                intro _
                left
                exact ⟨by simp, rfl⟩
              | none =>
                simp only [hfp] at h
                simp at h

/-! ## Lemmas: the CA secret reconciler -/

theorem ensureCA_services (crypto : Crypto) (p : Params) (w : World) :
    (ensureCASecretIsCreated crypto p w).1.services = w.services := by
  simp only [ensureCASecretIsCreated]
  split
  · rfl
  · split
    · rfl
    · rfl

theorem ensureCA_frame (crypto : Crypto) (p : Params) (w : World) (n : String)
    (h : n ≠ p.caSecretName) :
    findSec (ensureCASecretIsCreated crypto p w).1.secrets n = findSec w.secrets n := by
  simp only [ensureCASecretIsCreated]
  split
  · dsimp only
    rw [findSec_cons]
    split
    · next hc => exact absurd hc.symm h
    · rfl
  · split
    · rfl
    · rfl

theorem ensureCA_noop (crypto : Crypto) (p : Params) (w : World) (caSec : Sec) (ca : CA)
    (hf : findSec w.secrets p.caSecretName = some caSec)
    (hl : crypto.loadCA ((lookupA caSec.data caCrtKey).getD [])
        ((lookupA caSec.data caKeyKey).getD []) = some ca) :
    ensureCASecretIsCreated crypto p w = (w, [], Except.ok ca) := by
  simp only [ensureCASecretIsCreated, hf, hl]

theorem ensureCA_post (crypto : Crypto) (p : Params) (w w3 : World) (acts3 : List Action)
    (ca : CA)
    (hload : crypto.loadCA crypto.newCA.bundle crypto.newCA.keyPEM = some crypto.newCA)
    (h : ensureCASecretIsCreated crypto p w = (w3, acts3, Except.ok ca)) :
    ∃ caSec, findSec w3.secrets p.caSecretName = some caSec ∧
      crypto.loadCA ((lookupA caSec.data caCrtKey).getD [])
        ((lookupA caSec.data caKeyKey).getD []) = some ca := by
  cases hf : findSec w.secrets p.caSecretName with
  | none =>
    simp only [ensureCASecretIsCreated, hf, Prod.mk.injEq, Except.ok.injEq] at h
    obtain ⟨hw3, hacts, hca⟩ := h
    refine ⟨{ name := p.caSecretName, labels := p.labels,
              data := [(caCrtKey, crypto.newCA.bundle), (caKeyKey, crypto.newCA.keyPEM)],
              secType := "Opaque" }, ?_, ?_⟩
    · rw [← hw3]
      dsimp only
      rw [findSec_cons, if_pos rfl]
    · have h1 : lookupA [(caCrtKey, crypto.newCA.bundle), (caKeyKey, crypto.newCA.keyPEM)]
          caCrtKey = some crypto.newCA.bundle := by
        rw [lookupA_cons, if_pos rfl]
      have h2 : lookupA [(caCrtKey, crypto.newCA.bundle), (caKeyKey, crypto.newCA.keyPEM)]
          caKeyKey = some crypto.newCA.keyPEM := by
        rw [lookupA_cons, if_neg (by decide), lookupA_cons, if_pos rfl]
      rw [← hca]
      dsimp only
      rw [h1, h2]
      simp only [Option.getD_some]
      exact hload
  | some caSec =>
    cases hl : crypto.loadCA ((lookupA caSec.data caCrtKey).getD [])
        ((lookupA caSec.data caKeyKey).getD []) with
    | none =>
      simp only [ensureCASecretIsCreated, hf, hl, Prod.mk.injEq] at h
      exact absurd h.2.2 (by simp)
    | some ca2 =>
      simp only [ensureCASecretIsCreated, hf, hl, Prod.mk.injEq, Except.ok.injEq] at h
      obtain ⟨hw3, _, hca⟩ := h
      exact ⟨caSec, by rw [← hw3]; exact hf, by rw [hl, hca]⟩

theorem ensureCA_err (crypto : Crypto) (p : Params) (w w3 : World) (acts3 : List Action)
    (e : String)
    (h : ensureCASecretIsCreated crypto p w = (w3, acts3, Except.error e)) :
    w3 = w ∧ acts3 = [] := by
  cases hf : findSec w.secrets p.caSecretName with
  | none =>
    simp only [ensureCASecretIsCreated, hf, Prod.mk.injEq] at h
    exact absurd h.2.2 (by simp)
  | some caSec =>
    cases hl : crypto.loadCA ((lookupA caSec.data caCrtKey).getD [])
        ((lookupA caSec.data caKeyKey).getD []) with
    | none =>
      simp only [ensureCASecretIsCreated, hf, hl, Prod.mk.injEq] at h
      exact ⟨h.1.symm, h.2.1.symm⟩
    | some ca2 =>
      simp only [ensureCASecretIsCreated, hf, hl, Prod.mk.injEq] at h
      exact absurd h.2.2 (by simp)

/-! ## Lemmas: the TLS secret reconciler -/

theorem rmTLS_post (p : Params) (st : CtrlState) (w : World) :
    findSec (ensureTLSSecretIsRemoved p st w).2.1.secrets p.tlsSecretName = none := by
  simp only [ensureTLSSecretIsRemoved]
  split
  · next hf => exact hf
  · split
    · exact findSec_removeSec_self w.secrets p.tlsSecretName
    · next e herr => simp [ensureTLSSecretIsRemovedCore] at herr

theorem rmTLS_noop (p : Params) (st : CtrlState) (w : World)
    (h : findSec w.secrets p.tlsSecretName = none) :
    ensureTLSSecretIsRemoved p st w = (st, w, []) := by
  simp only [ensureTLSSecretIsRemoved, h]

theorem rmTLS_services (p : Params) (st : CtrlState) (w : World) :
    (ensureTLSSecretIsRemoved p st w).2.1.services = w.services := by
  simp only [ensureTLSSecretIsRemoved]
  split
  · rfl
  · split
    · rfl
    · rfl

theorem rmTLS_frame (p : Params) (st : CtrlState) (w : World) (n : String)
    (h : n ≠ p.tlsSecretName) :
    findSec (ensureTLSSecretIsRemoved p st w).2.1.secrets n = findSec w.secrets n := by
  simp only [ensureTLSSecretIsRemoved]
  split
  · rfl
  · split
    · exact findSec_removeSec_other w.secrets p.tlsSecretName n h
    · rfl

theorem rmTLS_hasCP (p : Params) (st : CtrlState) (w : World) :
    (ensureTLSSecretIsRemoved p st w).1.hasControlPlaneNodes = st.hasControlPlaneNodes := by
  simp only [ensureTLSSecretIsRemoved]
  split
  · rfl
  · split
    · rfl
    · rfl

theorem cnts_services (crypto : Crypto) (p : Params) (ca : CA) (ips : List Bytes)
    (hostname : String) (w : World) :
    (createNewTLSSecret crypto p ca ips hostname w).1.services = w.services := by
  simp only [createNewTLSSecret]
  split
  · rfl
  · split
    · rfl
    · rfl

theorem cnts_frame (crypto : Crypto) (p : Params) (ca : CA) (ips : List Bytes)
    (hostname : String) (w : World) (n : String) (h : n ≠ p.tlsSecretName) :
    findSec (createNewTLSSecret crypto p ca ips hostname w).1.secrets n
      = findSec w.secrets n := by
  simp only [createNewTLSSecret]
  split
  · rfl
  · split
    · rfl
    · dsimp only
      rw [findSec_cons]
      split
      · next hc => exact absurd hc.symm h
      · rfl

theorem loadTLS_ctrl (crypto : Crypto) (secret : Sec) (st : CtrlState) :
    (loadTLSCertFromSecret crypto secret st).1.hasControlPlaneNodes
      = st.hasControlPlaneNodes := by
  simp only [loadTLSCertFromSecret]
  split
  · rfl
  · rfl

theorem ecl_services (crypto : Crypto) (p : Params) (nameInfo : CertNameInfo)
    (secret? : Option Sec) (ca : CA) (st : CtrlState) (w : World) :
    (ensureTLSSecretIsCreatedAndLoaded crypto p nameInfo secret? ca st w).2.1.services
      = w.services := by
  cases secret? with
  | some secret => rfl
  | none =>
    simp only [ensureTLSSecretIsCreatedAndLoaded]
    split
    · rfl
    · split
      · next w1 acts e heq =>
        have h1 := congrArg (fun x => x.1.services) heq
        dsimp only at h1
        rw [cnts_services] at h1
        exact h1.symm
      · next w1 acts newSec heq =>
        have h1 := congrArg (fun x => x.1.services) heq
        dsimp only at h1
        rw [cnts_services] at h1
        exact h1.symm

theorem ecl_frame (crypto : Crypto) (p : Params) (nameInfo : CertNameInfo)
    (secret? : Option Sec) (ca : CA) (st : CtrlState) (w : World) (n : String)
    (h : n ≠ p.tlsSecretName) :
    findSec (ensureTLSSecretIsCreatedAndLoaded crypto p nameInfo secret? ca st w).2.1.secrets n
      = findSec w.secrets n := by
  cases secret? with
  | some secret => rfl
  | none =>
    simp only [ensureTLSSecretIsCreatedAndLoaded]
    split
    · rfl
    · split
      · next w1 acts e heq =>
        have h1 := congrArg (fun x => findSec x.1.secrets n) heq
        dsimp only at h1
        rw [cnts_frame crypto p ca _ _ w n h] at h1
        exact h1.symm
      · next w1 acts newSec heq =>
        have h1 := congrArg (fun x => findSec x.1.secrets n) heq
        dsimp only at h1
        rw [cnts_frame crypto p ca _ _ w n h] at h1
        exact h1.symm

theorem ecl_hasCP (crypto : Crypto) (p : Params) (nameInfo : CertNameInfo)
    (secret? : Option Sec) (ca : CA) (st : CtrlState) (w : World) :
    (ensureTLSSecretIsCreatedAndLoaded crypto p nameInfo secret? ca st w).1.hasControlPlaneNodes
      = st.hasControlPlaneNodes := by
  cases secret? with
  | some secret =>
    show (loadTLSCertFromSecret crypto secret st).1.hasControlPlaneNodes = _
    exact loadTLS_ctrl crypto secret st
  | none =>
    simp only [ensureTLSSecretIsCreatedAndLoaded]
    split
    · rfl
    · split
      · rfl
      · exact loadTLS_ctrl crypto _ st

theorem dtls_services (crypto : Crypto) (p : Params) (nameInfo : CertNameInfo) (ca : CA)
    (secret : Sec) (st : CtrlState) (w : World) :
    (deleteTLSSecretWhenCertificateDoesNotMatchDesiredState crypto p nameInfo ca secret
      st w).2.1.services = w.services := by
  simp only [deleteTLSSecretWhenCertificateDoesNotMatchDesiredState]
  split
  · rfl
  · exact rmTLS_services p st w

theorem dtls_hasCP (crypto : Crypto) (p : Params) (nameInfo : CertNameInfo) (ca : CA)
    (secret : Sec) (st : CtrlState) (w : World) :
    (deleteTLSSecretWhenCertificateDoesNotMatchDesiredState crypto p nameInfo ca secret
      st w).1.hasControlPlaneNodes = st.hasControlPlaneNodes := by
  simp only [deleteTLSSecretWhenCertificateDoesNotMatchDesiredState]
  split
  · rfl
  · exact rmTLS_hasCP p st w

theorem etls_services (crypto : Crypto) (p : Params) (nameInfo : CertNameInfo) (ca : CA)
    (st : CtrlState) (w : World) :
    (ensureTLSSecret crypto p nameInfo ca st w).2.1.services = w.services := by
  simp only [ensureTLSSecret]
  split
  · exact ecl_services crypto p nameInfo none ca st w
  · rw [ecl_services]
    exact dtls_services crypto p nameInfo ca _ st w

theorem etls_frame (crypto : Crypto) (p : Params) (nameInfo : CertNameInfo) (ca : CA)
    (st : CtrlState) (w : World) (n : String) (h : n ≠ p.tlsSecretName) :
    findSec (ensureTLSSecret crypto p nameInfo ca st w).2.1.secrets n
      = findSec w.secrets n := by
  simp only [ensureTLSSecret]
  split
  · exact ecl_frame crypto p nameInfo none ca st w n h
  · rw [ecl_frame crypto p nameInfo _ ca _ _ n h]
    simp only [deleteTLSSecretWhenCertificateDoesNotMatchDesiredState]
    split
    · rfl
    · exact rmTLS_frame p st w n h

theorem etls_hasCP (crypto : Crypto) (p : Params) (nameInfo : CertNameInfo) (ca : CA)
    (st : CtrlState) (w : World) :
    (ensureTLSSecret crypto p nameInfo ca st w).1.hasControlPlaneNodes
      = st.hasControlPlaneNodes := by
  simp only [ensureTLSSecret]
  split
  · exact ecl_hasCP crypto p nameInfo none ca st w
  · rw [ecl_hasCP]
    exact dtls_hasCP crypto p nameInfo ca _ st w

theorem cnts_err_char (crypto : Crypto) (p : Params) (ca : CA) (ips : List Bytes)
    (host : String) (w w1 : World) (acts : List Action) (e : String)
    (h : createNewTLSSecret crypto p ca ips host w = (w1, acts, Except.error e)) :
    w1 = w ∧
    (crypto.issueServerCert ca (if host ≠ "" then [host] else []) ips = none ∨
      ∃ cert, crypto.issueServerCert ca (if host ≠ "" then [host] else []) ips = some cert ∧
        crypto.certToPEM cert = none) := by
  cases hiss : crypto.issueServerCert ca (if host ≠ "" then [host] else []) ips with
  | none =>
    simp only [createNewTLSSecret, hiss, Prod.mk.injEq] at h
    exact ⟨h.1.symm, Or.inl rfl⟩
  | some cert =>
    cases hpem : crypto.certToPEM cert with
    | none =>
      simp only [createNewTLSSecret, hiss, hpem, Prod.mk.injEq] at h
      exact ⟨h.1.symm, Or.inr ⟨cert, rfl, hpem⟩⟩
    | some pems =>
      simp only [createNewTLSSecret, hiss, hpem, Prod.mk.injEq] at h
      exact absurd h.2.2 (by simp)

theorem cnts_ok_find (crypto : Crypto) (p : Params) (ca : CA) (ips : List Bytes)
    (host : String) (w w1 : World) (acts : List Action) (sec : Sec)
    (h : createNewTLSSecret crypto p ca ips host w = (w1, acts, Except.ok sec)) :
    findSec w1.secrets p.tlsSecretName = some sec := by
  cases hiss : crypto.issueServerCert ca (if host ≠ "" then [host] else []) ips with
  | none =>
    simp only [createNewTLSSecret, hiss, Prod.mk.injEq] at h
    exact absurd h.2.2 (by simp)
  | some cert =>
    cases hpem : crypto.certToPEM cert with
    | none =>
      simp only [createNewTLSSecret, hiss, hpem, Prod.mk.injEq] at h
      exact absurd h.2.2 (by simp)
    | some pems =>
      simp only [createNewTLSSecret, hiss, hpem, Prod.mk.injEq, Except.ok.injEq] at h
      rw [← h.1, ← h.2.2]
      dsimp only
      rw [findSec_cons, if_pos rfl]

theorem ecl_none_post (crypto : Crypto) (p : Params) (nameInfo : CertNameInfo) (ca : CA)
    (st : CtrlState) (w : World) (hrt : CryptoRoundTrip crypto) (hwf : NameInfoWF nameInfo)
    (hf : findSec w.secrets p.tlsSecretName = none) :
    TLSPost crypto p nameInfo ca
      (ensureTLSSecretIsCreatedAndLoaded crypto p nameInfo none ca st w).2.1 := by
  by_cases hr : nameInfo.ready = true
  · rcases hcnts : createNewTLSSecret crypto p ca nameInfo.selectedIPs
        nameInfo.selectedHostname w with ⟨w1, acts, res⟩
    simp only [ensureTLSSecretIsCreatedAndLoaded, hr, Bool.not_true, Bool.false_eq_true,
      if_false, hcnts]
    cases res with
    | error e =>
      obtain ⟨hw1, hiss⟩ := cnts_err_char crypto p ca _ _ w w1 acts e hcnts
      subst hw1
      exact Or.inr (Or.inr ⟨hf, hiss⟩)
    | ok sec =>
      exact Or.inr (Or.inl ⟨sec, cnts_ok_find crypto p ca _ _ w w1 acts sec hcnts,
        createdSecretChecksClean crypto hrt p ca nameInfo w w1 acts sec hr (hwf hr) hcnts⟩)
  · have hrf : nameInfo.ready = false := by simpa using hr
    simp only [ensureTLSSecretIsCreatedAndLoaded, hrf, Bool.not_false, if_true]
    exact Or.inl ⟨hf, hrf⟩

theorem etls_post (crypto : Crypto) (p : Params) (nameInfo : CertNameInfo) (ca : CA)
    (st : CtrlState) (w : World) (hrt : CryptoRoundTrip crypto) (hwf : NameInfoWF nameInfo) :
    TLSPost crypto p nameInfo ca (ensureTLSSecret crypto p nameInfo ca st w).2.1 := by
  cases hf : findSec w.secrets p.tlsSecretName with
  | none =>
    simp only [ensureTLSSecret, hf]
    exact ecl_none_post crypto p nameInfo ca st w hrt hwf hf
  | some sec =>
    cases hchk : tlsSecretCheckResult crypto nameInfo ca sec with
    | none =>
      simp only [ensureTLSSecret, hf, deleteTLSSecretWhenCertificateDoesNotMatchDesiredState,
        hchk, Bool.false_eq_true, if_false, ensureTLSSecretIsCreatedAndLoaded]
      exact Or.inr (Or.inl ⟨sec, hf, hchk⟩)
    | some fail =>
      simp only [ensureTLSSecret, hf, deleteTLSSecretWhenCertificateDoesNotMatchDesiredState,
        hchk, ensureTLSSecretIsRemoved, ensureTLSSecretIsRemovedCore, Bool.not_true,
        Bool.false_eq_true, if_false, eq_self_iff_true, if_true]
      exact ecl_none_post crypto p nameInfo ca _ _ hrt hwf
        (findSec_removeSec_self w.secrets p.tlsSecretName)

theorem etls_actions_nil (crypto : Crypto) (p : Params) (nameInfo : CertNameInfo) (ca : CA)
    (st : CtrlState) (w : World) (h : TLSPost crypto p nameInfo ca w) :
    (ensureTLSSecret crypto p nameInfo ca st w).2.2.1 = [] := by
  rcases h with ⟨habs, hnr⟩ | ⟨sec, hfs, hchk⟩ | ⟨habs, hiss⟩
  · simp only [ensureTLSSecret, habs, ensureTLSSecretIsCreatedAndLoaded, hnr,
      Bool.not_false, if_true]
  · simp only [ensureTLSSecret, hfs, deleteTLSSecretWhenCertificateDoesNotMatchDesiredState,
      hchk, Bool.false_eq_true, if_false, ensureTLSSecretIsCreatedAndLoaded]
    rfl
  · rcases hiss with hnone | ⟨cert, hsome, hpem⟩
    · simp only [ensureTLSSecret, habs, ensureTLSSecretIsCreatedAndLoaded]
      by_cases hr : nameInfo.ready = true
      · simp only [hr, Bool.not_true, Bool.false_eq_true, if_false, createNewTLSSecret, hnone]
      · have hrf : nameInfo.ready = false := by simpa using hr
        simp only [hrf, Bool.not_false, if_true]
    · simp only [ensureTLSSecret, habs, ensureTLSSecretIsCreatedAndLoaded]
      by_cases hr : nameInfo.ready = true
      · simp only [hr, Bool.not_true, Bool.false_eq_true, if_false, createNewTLSSecret,
          hsome, hpem]
      · have hrf : nameInfo.ready = false := by simpa using hr
        simp only [hrf, Bool.not_false, if_true]

theorem impStop_hasCP (b : Bool) (exitErr : Option String) (st : CtrlState) :
    (ensureImpersonatorIsStopped b exitErr st).1.hasControlPlaneNodes
      = st.hasControlPlaneNodes := by
  simp only [ensureImpersonatorIsStopped]
  split
  · rfl
  · rfl

theorem impStart_hasCP (st : CtrlState) :
    (ensureImpersonatorIsStarted st).1.hasControlPlaneNodes = st.hasControlPlaneNodes := by
  simp only [ensureImpersonatorIsStarted]
  split
  · split
    · rw [impStop_hasCP]
    · rfl
  · rfl

theorem loadSigner_hasCP (crypto : Crypto) (p : Params) (status : StrategyStatus)
    (st : CtrlState) (w : World) :
    (loadSignerCA crypto p status st w).1.hasControlPlaneNodes
      = st.hasControlPlaneNodes := by
  simp only [loadSignerCA]
  split
  · rfl
  · split
    · rfl
    · split
      · rfl
      · rfl

/-! ## Lemmas: the TLS phase of a second pass produces no actions -/

theorem syncTLS_notls_noop (crypto : Crypto) (p : Params) (hasCP : Bool) (config : ProxySpec)
    (nameInfo : CertNameInfo) (st : CtrlState) (w : World)
    (hsh : shouldHaveTLSSecret hasCP config = false)
    (hf : findSec w.secrets p.tlsSecretName = none) :
    syncTLSStep crypto p hasCP config nameInfo st w = (st, w, [], none, none) := by
  simp only [syncTLSStep, hsh, Bool.false_eq_true, if_false, rmTLS_noop p st w hf]

theorem syncTLS_true_acts (crypto : Crypto) (p : Params) (hasCP : Bool) (config : ProxySpec)
    (nameInfo : CertNameInfo) (ca : CA) (caSec : Sec) (st : CtrlState) (w : World)
    (hsh : shouldHaveTLSSecret hasCP config = true)
    (hfca : findSec w.secrets p.caSecretName = some caSec)
    (hlca : crypto.loadCA ((lookupA caSec.data caCrtKey).getD [])
        ((lookupA caSec.data caKeyKey).getD []) = some ca)
    (hpost : TLSPost crypto p nameInfo ca w) :
    ∃ st4 w4 err4, syncTLSStep crypto p hasCP config nameInfo st w
      = (st4, w4, [], err4, some ca) := by
  obtain ⟨st4, w4, acts4, err4, hetls⟩ :
      ∃ a b c d, ensureTLSSecret crypto p nameInfo ca st w = (a, b, c, d) :=
    ⟨_, _, _, _, rfl⟩
  have hnil : acts4 = [] := by
    have h1 := congrArg (fun x => x.2.2.1) hetls
    dsimp only at h1
    rw [etls_actions_nil crypto p nameInfo ca st w hpost] at h1
    exact h1.symm
  subst hnil
  refine ⟨st4, w4, err4, ?_⟩
  simp only [syncTLSStep, hsh, if_true, ensureCA_noop crypto p w caSec ca hfca hlca, hetls,
    List.nil_append]

/-! ## Lemmas: a second sync pass issues no mutating calls -/

theorem doSync_second_resolver_err (crypto : Crypto) (p : Params) (queryHasCP : Bool)
    (exitErr : Option String) (now : Nat) (spec? : Option ProxySpec) (config : ProxySpec)
    (hcp : Bool) (w0 : World) (C : CtrlState) (W : World) (e : String)
    (hcfg : loadImpersonationProxyConfiguration spec? = Except.ok config)
    (hne : p.loadBalancerSvcName ≠ p.clusterIPSvcName)
    (hC : C.hasControlPlaneNodes = some hcp)
    (hsv : W.services = (syncServicesStep p hcp config w0).1.services)
    (hname : findDesiredTLSCertificateName p config
      (syncServicesStep p hcp config w0).1.services = Except.error e) :
    (doSync crypto p queryHasCP exitErr now spec? C W).actions = [] := by
  have hsvc2 : syncServicesStep p hcp config W = (W, []) :=
    syncServices_post p hcp config w0 W hne hsv
  have hres : findDesiredTLSCertificateName p config W.services = Except.error e := by
    rw [hsv]
    exact hname
  simp only [doSync, hcfg, hC, Option.getD_some]
  obtain ⟨st2, e2, hri⟩ :
      ∃ a b, (if shouldHaveImpersonator hcp config then
          ensureImpersonatorIsStarted { C with hasControlPlaneNodes := some hcp }
        else ensureImpersonatorIsStopped true exitErr
          { C with hasControlPlaneNodes := some hcp }) = (a, b) :=
    ⟨_, _, rfl⟩
  rw [hri]
  cases e2 with
  | some e2v => rfl
  | none => simp only [hsvc2, hres]

theorem doSync_second_notls (crypto : Crypto) (p : Params) (queryHasCP : Bool)
    (exitErr : Option String) (now : Nat) (spec? : Option ProxySpec) (config : ProxySpec)
    (hcp : Bool) (w0 : World) (C : CtrlState) (W : World) (nameInfo : CertNameInfo)
    (hcfg : loadImpersonationProxyConfiguration spec? = Except.ok config)
    (hne : p.loadBalancerSvcName ≠ p.clusterIPSvcName)
    (hC : C.hasControlPlaneNodes = some hcp)
    (hsv : W.services = (syncServicesStep p hcp config w0).1.services)
    (hname : findDesiredTLSCertificateName p config
      (syncServicesStep p hcp config w0).1.services = Except.ok nameInfo)
    (hsh : shouldHaveTLSSecret hcp config = false)
    (htls : findSec W.secrets p.tlsSecretName = none) :
    (doSync crypto p queryHasCP exitErr now spec? C W).actions = [] := by
  have hsvc2 : syncServicesStep p hcp config W = (W, []) :=
    syncServices_post p hcp config w0 W hne hsv
  have hres : findDesiredTLSCertificateName p config W.services = Except.ok nameInfo := by
    rw [hsv]
    exact hname
  simp only [doSync, hcfg, hC, Option.getD_some]
  obtain ⟨st2, e2, hri⟩ :
      ∃ a b, (if shouldHaveImpersonator hcp config then
          ensureImpersonatorIsStarted { C with hasControlPlaneNodes := some hcp }
        else ensureImpersonatorIsStopped true exitErr
          { C with hasControlPlaneNodes := some hcp }) = (a, b) :=
    ⟨_, _, rfl⟩
  rw [hri]
  cases e2 with
  | some e2v => rfl
  | none =>
    simp only [hsvc2, hres,
      syncTLS_notls_noop crypto p hcp config nameInfo st2 W hsh htls]
    cases hsg : (loadSignerCA crypto p
        (doSyncResult now hcp nameInfo config none).status st2 W).2 with
    | some e3 => rfl
    | none => rfl

theorem doSync_second_ca_err (crypto : Crypto) (p : Params) (queryHasCP : Bool)
    (exitErr : Option String) (now : Nat) (spec? : Option ProxySpec) (config : ProxySpec)
    (hcp : Bool) (w0 : World) (C : CtrlState) (W : World) (nameInfo : CertNameInfo)
    (e : String)
    (hcfg : loadImpersonationProxyConfiguration spec? = Except.ok config)
    (hne : p.loadBalancerSvcName ≠ p.clusterIPSvcName)
    (hC : C.hasControlPlaneNodes = some hcp)
    (hsv : W.services = (syncServicesStep p hcp config w0).1.services)
    (hname : findDesiredTLSCertificateName p config
      (syncServicesStep p hcp config w0).1.services = Except.ok nameInfo)
    (hsh : shouldHaveTLSSecret hcp config = true)
    (hcar : ensureCASecretIsCreated crypto p W = (W, [], Except.error e)) :
    (doSync crypto p queryHasCP exitErr now spec? C W).actions = [] := by
  have hsvc2 : syncServicesStep p hcp config W = (W, []) :=
    syncServices_post p hcp config w0 W hne hsv
  have hres : findDesiredTLSCertificateName p config W.services = Except.ok nameInfo := by
    rw [hsv]
    exact hname
  simp only [doSync, hcfg, hC, Option.getD_some]
  obtain ⟨st2, e2, hri⟩ :
      ∃ a b, (if shouldHaveImpersonator hcp config then
          ensureImpersonatorIsStarted { C with hasControlPlaneNodes := some hcp }
        else ensureImpersonatorIsStopped true exitErr
          { C with hasControlPlaneNodes := some hcp }) = (a, b) :=
    ⟨_, _, rfl⟩
  rw [hri]
  cases e2 with
  | some e2v => rfl
  | none =>
    simp only [hsvc2, hres, syncTLSStep, hsh, if_true, hcar]
    rfl

theorem doSync_second_ca_ok (crypto : Crypto) (p : Params) (queryHasCP : Bool)
    (exitErr : Option String) (now : Nat) (spec? : Option ProxySpec) (config : ProxySpec)
    (hcp : Bool) (w0 : World) (C : CtrlState) (W : World) (nameInfo : CertNameInfo)
    (ca : CA) (caSec : Sec)
    (hcfg : loadImpersonationProxyConfiguration spec? = Except.ok config)
    (hne : p.loadBalancerSvcName ≠ p.clusterIPSvcName)
    (hC : C.hasControlPlaneNodes = some hcp)
    (hsv : W.services = (syncServicesStep p hcp config w0).1.services)
    (hname : findDesiredTLSCertificateName p config
      (syncServicesStep p hcp config w0).1.services = Except.ok nameInfo)
    (hsh : shouldHaveTLSSecret hcp config = true)
    (hfca : findSec W.secrets p.caSecretName = some caSec)
    (hlca : crypto.loadCA ((lookupA caSec.data caCrtKey).getD [])
        ((lookupA caSec.data caKeyKey).getD []) = some ca)
    (hpost : TLSPost crypto p nameInfo ca W) :
    (doSync crypto p queryHasCP exitErr now spec? C W).actions = [] := by
  have hsvc2 : syncServicesStep p hcp config W = (W, []) :=
    syncServices_post p hcp config w0 W hne hsv
  have hres : findDesiredTLSCertificateName p config W.services = Except.ok nameInfo := by
    rw [hsv]
    exact hname
  simp only [doSync, hcfg, hC, Option.getD_some]
  obtain ⟨st2, e2, hri⟩ :
      ∃ a b, (if shouldHaveImpersonator hcp config then
          ensureImpersonatorIsStarted { C with hasControlPlaneNodes := some hcp }
        else ensureImpersonatorIsStopped true exitErr
          { C with hasControlPlaneNodes := some hcp }) = (a, b) :=
    ⟨_, _, rfl⟩
  rw [hri]
  cases e2 with
  | some e2v => rfl
  | none =>
    obtain ⟨st4, w4, err4, hT2⟩ :=
      syncTLS_true_acts crypto p hcp config nameInfo ca caSec st2 W hsh hfca hlca hpost
    simp only [hsvc2, hres, hT2]
    cases err4 with
    | some e4 => rfl
    | none =>
      dsimp only
      cases hsg : (loadSignerCA crypto p
          (doSyncResult now hcp nameInfo config (some ca)).status st4 w4).2 with
      | some e3 => rfl
      | none => rfl

/-- C8 (amended): for every starting state, running a sync pass twice in
succession with no external change between the passes produces zero mutating
calls (create, update, delete) on the second pass, provided that (a) the
crypto layer is coherent (issued certificates round-trip and a fresh CA
reloads), (b) the first pass's proxy start/stop step reports no error (in
particular no crash of the proxy process is pending on the error channel),
(c) a configured external endpoint parses with a non-empty host, and (d) the
four managed resource names are distinct where they share a store. -/
theorem c8_idempotent (crypto : Crypto) (p : Params) (queryHasCP : Bool)
    (exitErr : Option String) (now : Nat) (spec? : Option ProxySpec)
    (st0 : CtrlState) (w0 : World)
    (hcc : CryptoCoherent crypto)
    (himp : impStepOk queryHasCP exitErr spec? st0)
    (hep : ∀ config, loadImpersonationProxyConfiguration spec? = Except.ok config →
      config.externalEndpoint ≠ "" →
      ∃ addr, parseEndpoint config.externalEndpoint 443 = some addr ∧ addr.host ≠ "")
    (hnsvc : p.loadBalancerSvcName ≠ p.clusterIPSvcName)
    (hnsec : p.caSecretName ≠ p.tlsSecretName) :
    (doSync crypto p queryHasCP exitErr now spec?
      (doSync crypto p queryHasCP exitErr now spec? st0 w0).ctrl
      (doSync crypto p queryHasCP exitErr now spec? st0 w0).world).actions = [] := by
  cases hcfg : loadImpersonationProxyConfiguration spec? with
  | error e => simp only [doSync, hcfg]
  | ok config =>
    obtain ⟨stI, hImp⟩ :
        ∃ s, (if shouldHaveImpersonator (st0.hasControlPlaneNodes.getD queryHasCP) config then
            ensureImpersonatorIsStarted
              { st0 with hasControlPlaneNodes := some (st0.hasControlPlaneNodes.getD queryHasCP) }
          else
            ensureImpersonatorIsStopped true exitErr
              { st0 with hasControlPlaneNodes := some (st0.hasControlPlaneNodes.getD queryHasCP) }) = (s, none) :=
      ⟨_, by rw [← himp config hcfg]⟩
    have hstI : stI.hasControlPlaneNodes
        = some (st0.hasControlPlaneNodes.getD queryHasCP) := by
      have h1 := congrArg (fun x => x.1.hasControlPlaneNodes) hImp
      dsimp only at h1
      rw [← h1]
      split
      · rw [impStart_hasCP]
      · rw [impStop_hasCP]
    cases hname : findDesiredTLSCertificateName p config
        (syncServicesStep p (st0.hasControlPlaneNodes.getD queryHasCP) config w0).1.services with
    | error e =>
      have hC1 : (doSync crypto p queryHasCP exitErr now spec? st0
          w0).ctrl.hasControlPlaneNodes
          = some (st0.hasControlPlaneNodes.getD queryHasCP) := by
        simp only [doSync, hcfg, hImp, hname]
        exact hstI
      have hW1 : (doSync crypto p queryHasCP exitErr now spec? st0 w0).world.services
          = (syncServicesStep p (st0.hasControlPlaneNodes.getD queryHasCP) config
              w0).1.services := by
        simp only [doSync, hcfg, hImp, hname]
      exact doSync_second_resolver_err crypto p queryHasCP exitErr now spec? config
        (st0.hasControlPlaneNodes.getD queryHasCP) w0 _ _ e hcfg hnsvc hC1 hW1 hname
    | ok nameInfo =>
      have hwf : NameInfoWF nameInfo :=
        resolver_wf p config _ nameInfo (hep config hcfg) hname
      cases hsh : shouldHaveTLSSecret (st0.hasControlPlaneNodes.getD queryHasCP) config with
      | false =>
        obtain ⟨stR, wR, actsR, hrm⟩ :
            ∃ a b c, ensureTLSSecretIsRemoved p stI
              (syncServicesStep p (st0.hasControlPlaneNodes.getD queryHasCP) config w0).1
              = (a, b, c) := ⟨_, _, _, rfl⟩
        have hT1 : syncTLSStep crypto p (st0.hasControlPlaneNodes.getD queryHasCP) config
            nameInfo stI
            (syncServicesStep p (st0.hasControlPlaneNodes.getD queryHasCP) config w0).1
            = (stR, wR, actsR, none, none) := by
          simp only [syncTLSStep, hsh, Bool.false_eq_true, if_false, hrm]
        have hWserv : wR.services
            = (syncServicesStep p (st0.hasControlPlaneNodes.getD queryHasCP) config
                w0).1.services := by
          have h1 := congrArg (fun x => x.2.1.services) hrm
          dsimp only at h1
          rw [rmTLS_services] at h1
          exact h1.symm
        have hWtls : findSec wR.secrets p.tlsSecretName = none := by
          have h1 := congrArg (fun x => findSec x.2.1.secrets p.tlsSecretName) hrm
          dsimp only at h1
          rw [rmTLS_post] at h1
          exact h1.symm
        have hstR : stR.hasControlPlaneNodes
            = some (st0.hasControlPlaneNodes.getD queryHasCP) := by
          have h1 := congrArg (fun x => x.1.hasControlPlaneNodes) hrm
          dsimp only at h1
          rw [rmTLS_hasCP] at h1
          rw [← h1]
          exact hstI
        have hC1 : (doSync crypto p queryHasCP exitErr now spec? st0
            w0).ctrl.hasControlPlaneNodes
            = some (st0.hasControlPlaneNodes.getD queryHasCP) := by
          simp only [doSync, hcfg, hImp, hname, hT1]
          cases hsg : (loadSignerCA crypto p
              (doSyncResult now (st0.hasControlPlaneNodes.getD queryHasCP) nameInfo config
                none).status stR wR).2 with
          | some e3 =>
            dsimp only
            rw [loadSigner_hasCP]
            exact hstR
          | none =>
            dsimp only
            rw [loadSigner_hasCP]
            exact hstR
        have hW1s : (doSync crypto p queryHasCP exitErr now spec? st0 w0).world.services
            = (syncServicesStep p (st0.hasControlPlaneNodes.getD queryHasCP) config
                w0).1.services := by
          simp only [doSync, hcfg, hImp, hname, hT1]
          cases hsg : (loadSignerCA crypto p
              (doSyncResult now (st0.hasControlPlaneNodes.getD queryHasCP) nameInfo config
                none).status stR wR).2 with
          | some e3 => exact hWserv
          | none => exact hWserv
        have hW1t : findSec (doSync crypto p queryHasCP exitErr now spec? st0
            w0).world.secrets p.tlsSecretName = none := by
          simp only [doSync, hcfg, hImp, hname, hT1]
          cases hsg : (loadSignerCA crypto p
              (doSyncResult now (st0.hasControlPlaneNodes.getD queryHasCP) nameInfo config
                none).status stR wR).2 with
          | some e3 => exact hWtls
          | none => exact hWtls
        exact doSync_second_notls crypto p queryHasCP exitErr now spec? config
          (st0.hasControlPlaneNodes.getD queryHasCP) w0 _ _ nameInfo hcfg hnsvc hC1 hW1s
          hname hsh hW1t
      | true =>
        obtain ⟨w3, acts3, res3, hcar⟩ :
            ∃ a b c, ensureCASecretIsCreated crypto p
              (syncServicesStep p (st0.hasControlPlaneNodes.getD queryHasCP) config w0).1
              = (a, b, c) := ⟨_, _, _, rfl⟩
        cases res3 with
        | error e =>
          obtain ⟨hw3, hacts3⟩ := ensureCA_err crypto p _ w3 acts3 e hcar
          subst hw3
          subst hacts3
          have hT1 : syncTLSStep crypto p (st0.hasControlPlaneNodes.getD queryHasCP) config
              nameInfo stI
              (syncServicesStep p (st0.hasControlPlaneNodes.getD queryHasCP) config w0).1
              = (stI, (syncServicesStep p (st0.hasControlPlaneNodes.getD queryHasCP) config
                  w0).1, [], some e, none) := by
            simp only [syncTLSStep, hsh, if_true, hcar]
          have hC1 : (doSync crypto p queryHasCP exitErr now spec? st0
              w0).ctrl.hasControlPlaneNodes
              = some (st0.hasControlPlaneNodes.getD queryHasCP) := by
            simp only [doSync, hcfg, hImp, hname, hT1]
            exact hstI
          have hW1 : (doSync crypto p queryHasCP exitErr now spec? st0 w0).world
              = (syncServicesStep p (st0.hasControlPlaneNodes.getD queryHasCP) config
                  w0).1 := by
            simp only [doSync, hcfg, hImp, hname, hT1]
          rw [hW1]
          exact doSync_second_ca_err crypto p queryHasCP exitErr now spec? config
            (st0.hasControlPlaneNodes.getD queryHasCP) w0 _ _ nameInfo e hcfg hnsvc hC1 rfl
            hname hsh hcar
        | ok ca =>
          obtain ⟨caSec, hfca, hlca⟩ := ensureCA_post crypto p _ w3 acts3 ca hcc.2 hcar
          obtain ⟨stE, wE, actsE, errE, hetls⟩ :
              ∃ a b c d, ensureTLSSecret crypto p nameInfo ca stI w3 = (a, b, c, d) :=
            ⟨_, _, _, _, rfl⟩
          have hT1 : syncTLSStep crypto p (st0.hasControlPlaneNodes.getD queryHasCP) config
              nameInfo stI
              (syncServicesStep p (st0.hasControlPlaneNodes.getD queryHasCP) config w0).1
              = (stE, wE, acts3 ++ actsE, errE, some ca) := by
            simp only [syncTLSStep, hsh, if_true, hcar, hetls]
          have hw3serv : w3.services
              = (syncServicesStep p (st0.hasControlPlaneNodes.getD queryHasCP) config
                  w0).1.services := by
            have h1 := congrArg (fun x => x.1.services) hcar
            dsimp only at h1
            rw [ensureCA_services] at h1
            exact h1.symm
          have hWserv : wE.services
              = (syncServicesStep p (st0.hasControlPlaneNodes.getD queryHasCP) config
                  w0).1.services := by
            have h1 := congrArg (fun x => x.2.1.services) hetls
            dsimp only at h1
            rw [etls_services] at h1
            exact h1.symm.trans hw3serv
          have hpost : TLSPost crypto p nameInfo ca wE := by
            have h2 := etls_post crypto p nameInfo ca stI w3 hcc.1 hwf
            rw [hetls] at h2
            exact h2
          have hWca : findSec wE.secrets p.caSecretName = some caSec := by
            have h1 := congrArg (fun x => findSec x.2.1.secrets p.caSecretName) hetls
            dsimp only at h1
            rw [etls_frame crypto p nameInfo ca stI w3 p.caSecretName hnsec] at h1
            rw [← h1]
            exact hfca
          have hstE : stE.hasControlPlaneNodes
              = some (st0.hasControlPlaneNodes.getD queryHasCP) := by
            have h1 := congrArg (fun x => x.1.hasControlPlaneNodes) hetls
            dsimp only at h1
            rw [etls_hasCP] at h1
            rw [← h1]
            exact hstI
          cases errE with
          | some eE =>
            have hC1 : (doSync crypto p queryHasCP exitErr now spec? st0
                w0).ctrl.hasControlPlaneNodes
                = some (st0.hasControlPlaneNodes.getD queryHasCP) := by
              simp only [doSync, hcfg, hImp, hname, hT1]
              exact hstE
            have hW1 : (doSync crypto p queryHasCP exitErr now spec? st0 w0).world = wE := by
              simp only [doSync, hcfg, hImp, hname, hT1]
            rw [hW1]
            exact doSync_second_ca_ok crypto p queryHasCP exitErr now spec? config
              (st0.hasControlPlaneNodes.getD queryHasCP) w0 _ wE nameInfo ca caSec hcfg
              hnsvc hC1 hWserv hname hsh hWca hlca hpost
          | none =>
            have hC1 : (doSync crypto p queryHasCP exitErr now spec? st0
                w0).ctrl.hasControlPlaneNodes
                = some (st0.hasControlPlaneNodes.getD queryHasCP) := by
              simp only [doSync, hcfg, hImp, hname, hT1]
              cases hsg : (loadSignerCA crypto p
                  (doSyncResult now (st0.hasControlPlaneNodes.getD queryHasCP) nameInfo
                    config (some ca)).status stE wE).2 with
              | some e3 =>
                dsimp only
                rw [loadSigner_hasCP]
                exact hstE
              | none =>
                dsimp only
                rw [loadSigner_hasCP]
                exact hstE
            have hW1 : (doSync crypto p queryHasCP exitErr now spec? st0 w0).world = wE := by
              simp only [doSync, hcfg, hImp, hname, hT1]
              cases hsg : (loadSignerCA crypto p
                  (doSyncResult now (st0.hasControlPlaneNodes.getD queryHasCP) nameInfo
                    config (some ca)).status stE wE).2 with
              | some e3 => rfl
              | none => rfl
            rw [hW1]
            exact doSync_second_ca_ok crypto p queryHasCP exitErr now spec? config
              (st0.hasControlPlaneNodes.getD queryHasCP) w0 _ wE nameInfo ca caSec hcfg
              hnsvc hC1 hWserv hname hsh hWca hlca hpost

/-- C8 counterexample: with a pending proxy crash buffered on the error
channel, the first sync pass returns the crash error before touching the
store, and the second pass — run from the unchanged store — creates the load
balancer service and the CA secret, so the second pass's mutating calls are
not zero. -/
theorem c8_counterexample :
    (doSync toyCrypto exParams false none 0 (some enabledSpec)
      (doSync toyCrypto exParams false none 0 (some enabledSpec) crashedState
        emptyWorld).ctrl
      (doSync toyCrypto exParams false none 0 (some enabledSpec) crashedState
        emptyWorld).world).actions ≠ [] := by
  decide

theorem c8_idempotent_witness :
    (doSync toyCrypto exParams false none 0 (some disabledSpec)
      (doSync toyCrypto exParams false none 0 (some disabledSpec) runningCleanState
        emptyWorld).ctrl
      (doSync toyCrypto exParams false none 0 (some disabledSpec) runningCleanState
        emptyWorld).world).actions = [] :=
  c8_idempotent toyCrypto exParams false none 0 (some disabledSpec) runningCleanState
    emptyWorld
    ⟨toyCryptoRT, by decide⟩
    (by
      intro config hcfg
      have h : disabledSpec = config := by injection hcfg
      subst h
      decide)
    (by
      intro config hcfg hne
      have h : disabledSpec = config := by injection hcfg
      subst h
      exact absurd rfl hne)
    (by decide)
    (by decide)

end Impersonator
